import Mathlib

/-!
Verification of the javelin shader-translator's validator and GLSL
preprocessor against its specification.

The development shallowly embeds the relevant Rust sources:
  * `src/valid/mod.rs` — `Validator::validate`, `Validator::validate_constant`,
    `TypeInner::is_sized`;
  * `src/valid/expression.rs` — `ExpressionTypeResolver::resolve`,
    `Validator::validate_expression` and `ExpressionError`;
  * `src/front/glsl/preprocessor.rs` — the token model and `parse_preprocessor`;
  * `examples/convert.rs` — the CLI driver's output dispatch.

The IR data model (the repository's root module) is not among the staged
sources; its enumerations are reconstructed from the specification's §3 data
model, which lists every variant and field, and from the exhaustive matches
over them in `valid/mod.rs` and `valid/expression.rs`.  Sub-validators that
live in unstaged files (`valid/type.rs`, `valid/function.rs`,
`valid/interface.rs`, the analyzer and the layouter) enter the embedding as
universally-quantified parameters, so every theorem about the staged driver
holds for the real callees in particular.

Rust panics (arena indexing out of range, `unwrap`, `panic!`,
`unimplemented!`) are modelled by an explicit `panicked` outcome, kept apart
from the `Err` values the functions return.
-/

namespace Javelin

/-- Arena handles: a dense index (spec §3 "opaque handles (stable index +
type tag)"; the type tag is carried by the Lean type of the containing
field). -/
abbrev Handle := Nat

/-- `ScalarKind` (spec §3: `kind ∈ «Sint,Uint,Float,Bool»`). -/
inductive ScalarKind where
  | Sint
  | Uint
  | Float
  | Bool
deriving DecidableEq, Repr

/-- `VectorSize` (spec §3: `size ∈ «2,3,4»`); `as u32` gives 2, 3, 4. -/
inductive VectorSize where
  | Bi
  | Tri
  | Quad
deriving DecidableEq, Repr

/-- The `as u32` value of a `VectorSize`. -/
def VectorSize.toNat : VectorSize → Nat
  | .Bi => 2
  | .Tri => 3
  | .Quad => 4

/-- `StorageClass` (spec §3/§4.G.5 names the classes; the Rust field on
pointers and globals is named `class`). -/
inductive StorageClass where
  | Constant
  | Function
  | Input
  | Output
  | Private
  | StorageBuffer
  | Uniform
  | Handle
  | WorkGroup
  | PushConstant
deriving DecidableEq, Repr

/-- `ImageDim` (spec §3: `dim ∈ «1D,2D,3D,Cube»`). -/
inductive ImageDim where
  | D1
  | D2
  | D3
  | Cube
deriving DecidableEq, Repr

/-- `ImageClass` (spec §3: `Sampled«kind,multi» | Storage«format,access` |
Depth«multi»`).  The storage format and access enumerations are opaque to
every staged function, so they are modelled by their discriminant index. -/
inductive ImageClass where
  | Sampled (kind : ScalarKind) (multi : Bool)
  | Storage (format : Nat) (access : Nat)
  | Depth (multi : Bool)
deriving DecidableEq, Repr

/-- `ArraySize` (spec §3: `Static(Handle<Constant>) | Dynamic`; the Rust
variant for the static case is `Constant`). -/
inductive ArraySize where
  | Constant (h : Handle)
  | Dynamic
deriving DecidableEq, Repr

/-- A struct member (spec §3: `«name?, ty, binding?, offset»`); the binding
payload is opaque to every staged function. -/
structure StructMember where
  name : Option String
  ty : Handle
  binding : Option Nat
  offset : Nat
deriving DecidableEq, Repr

/-- `TypeInner` (spec §3).  Widths are byte counts (`u8`). -/
inductive TypeInner where
  | Scalar (kind : ScalarKind) (width : Nat)
  | Vector (size : VectorSize) (kind : ScalarKind) (width : Nat)
  | Matrix (columns : VectorSize) (rows : VectorSize) (width : Nat)
  | Pointer (base : Handle) (space : StorageClass)
  | ValuePointer (kind : ScalarKind) (width : Nat) (space : StorageClass)
  | Array (base : Handle) (size : ArraySize) (stride : Option Nat)
  | Struct (block : Bool) (members : List StructMember)
  | Image (dim : ImageDim) (arrayed : Bool) (cls : ImageClass)
  | Sampler (comparison : Bool)
deriving DecidableEq, Repr

/-- `Type` of the IR (spec §3: `« name?, inner »`); `Type` is reserved in
Lean, hence `Ty`. -/
structure Ty where
  name : Option String
  inner : TypeInner
deriving DecidableEq, Repr

/-- `TypeInner::is_sized` — src/valid/mod.rs lines 123-139. -/
def TypeInner.is_sized : TypeInner → Bool
  | .Scalar _ _ => true
  | .Vector _ _ _ => true
  | .Matrix _ _ _ => true
  | .Array _ (.Constant _) _ => true
  | .Pointer _ _ => true
  | .ValuePointer _ _ _ => true
  | .Struct _ _ => true
  | .Array _ .Dynamic _ => false
  | .Image _ _ _ => false
  | .Sampler _ => false

/-- Modelled from the spec: `TypeInner::scalar_kind` lives in the unstaged IR
module.  A scalar or vector yields its `kind`; a matrix is always of floats
(spec §3: "Matrix … (always Float)"), which the staged `Multiply` arm of
`validate_expression` corroborates (matrix operands pass its numeric
`kind_match` test); every other type has no scalar kind. -/
def TypeInner.scalar_kind : TypeInner → Option ScalarKind
  | .Scalar kind _ => some kind
  | .Vector _ kind _ => some kind
  | .Matrix _ _ _ => some .Float
  | _ => none

/-- Modelled from the spec: `ScalarValue` of the unstaged IR module — the
payload of a scalar constant (spec §3 `Constant … Scalar«width,value»`).  The
float payload is irrelevant to every staged function (only the value's kind
is ever inspected), so it is not carried. -/
inductive ScalarValue where
  | Sint (v : Int)
  | Uint (v : Nat)
  | Float
  | Bool (v : Bool)
deriving DecidableEq, Repr

/-- Modelled from the spec: `ScalarValue::scalar_kind` — the kind tag of the
value's variant. -/
def ScalarValue.scalar_kind : ScalarValue → ScalarKind
  | .Sint _ => .Sint
  | .Uint _ => .Uint
  | .Float => .Float
  | .Bool _ => .Bool

/-- `ConstantInner` (spec §3: `Scalar«width,value» |
Composite«ty, components»`). -/
inductive ConstantInner where
  | Scalar (width : Nat) (value : ScalarValue)
  | Composite (ty : Handle) (components : List Handle)
deriving DecidableEq, Repr

/-- `Constant` (spec §3; the specialization payload is opaque to every
staged function). -/
structure Constant where
  name : Option String
  specialization : Option Nat
  inner : ConstantInner
deriving DecidableEq, Repr

/-- Modelled from the spec: `Constant::to_array_length` — §4.B's "helper on
Constant returning the array length when the constant represents one": an
integer scalar constant yields its value, anything else does not name a
length. -/
def Constant.to_array_length : Constant → Option Nat
  | ⟨_, _, .Scalar _ (.Uint v)⟩ => some v
  | ⟨_, _, .Scalar _ (.Sint v)⟩ => if 0 ≤ v then some v.toNat else none
  | _ => none

/-- `GlobalVariable` (spec §3; the Rust storage-class field is named
`class`, the binding payload is opaque to every staged function). -/
structure GlobalVariable where
  name : Option String
  space : StorageClass
  binding : Option Nat
  ty : Handle
  init : Option Handle
  storage_access : Nat
deriving DecidableEq, Repr

/-- `LocalVariable` (spec §3). -/
structure LocalVariable where
  name : Option String
  ty : Handle
  init : Option Handle
deriving DecidableEq, Repr

/-- `UnaryOperator` (spec §4.B; the two operators matched in
src/valid/expression.rs lines 364-377). -/
inductive UnaryOperator where
  | Negate
  | Not
deriving DecidableEq, Repr

/-- `BinaryOperator` (spec §4.B; the operators matched in
src/valid/expression.rs lines 379-525). -/
inductive BinaryOperator where
  | Add
  | Subtract
  | Multiply
  | Divide
  | Modulo
  | Equal
  | NotEqual
  | Less
  | LessEqual
  | Greater
  | GreaterEqual
  | And
  | ExclusiveOr
  | InclusiveOr
  | LogicalAnd
  | LogicalOr
  | ShiftLeft
  | ShiftRight
deriving DecidableEq, Repr

/-- `RelationalFunction` (src/valid/expression.rs lines 557-580). -/
inductive RelationalFunction where
  | All
  | Any
  | IsNan
  | IsInf
  | IsFinite
  | IsNormal
deriving DecidableEq, Repr

/-- `MathFunction` — opaque: the staged validator never inspects it
(`E::Math` is accepted wholesale), so it is modelled by its discriminant. -/
abbrev MathFunction := Nat

/-- `DerivativeAxis` (spec §4.B). -/
inductive DerivativeAxis where
  | X
  | Y
  | Width
deriving DecidableEq, Repr

/-- `ImageQuery` (src/valid/expression.rs lines 346-352). -/
inductive ImageQuery where
  | Size (level : Option Handle)
  | NumLevels
  | NumLayers
  | NumSamples
deriving DecidableEq, Repr

/-- Modelled from the spec: `SampleLevel` of the unstaged IR module; the
staged validator never inspects it (`E::ImageSample` is accepted
wholesale). -/
inductive SampleLevel where
  | Auto
  | Zero
  | Exact (h : Handle)
  | Bias (h : Handle)
deriving DecidableEq, Repr

/-- `Expression` (spec §3; field lists as matched in
src/valid/expression.rs). -/
inductive Expression where
  | Access (base : Handle) (index : Handle)
  | AccessIndex (base : Handle) (index : Nat)
  | Constant (h : Handle)
  | Compose (ty : Handle) (components : List Handle)
  | FunctionArgument (i : Nat)
  | GlobalVariable (h : Handle)
  | LocalVariable (h : Handle)
  | Load (pointer : Handle)
  | ImageSample (image : Handle) (sampler : Handle) (coordinate : Handle)
      (array_index : Option Handle) (offset : Option Handle)
      (level : SampleLevel) (depth_ref : Option Handle)
  | ImageLoad (image : Handle) (coordinate : Handle)
      (array_index : Option Handle) (index : Option Handle)
  | ImageQuery (image : Handle) (query : ImageQuery)
  | Unary (op : UnaryOperator) (expr : Handle)
  | Binary (op : BinaryOperator) (left : Handle) (right : Handle)
  | Select (condition : Handle) (accept : Handle) (reject : Handle)
  | Derivative (axis : DerivativeAxis) (expr : Handle)
  | Relational (fn : RelationalFunction) (argument : Handle)
  | Math (fn : MathFunction) (arg : Handle) (arg1 : Option Handle)
      (arg2 : Option Handle)
  | As (expr : Handle) (kind : ScalarKind) (convert : Bool)
  | Call (function : Handle)
  | ArrayLength (expr : Handle)
deriving DecidableEq, Repr

/-- `FunctionArgument` (spec §3: `arguments:[«name?,ty»]`). -/
structure FunctionArgument where
  name : Option String
  ty : Handle
deriving DecidableEq, Repr

/-- `Function` (spec §3).  The statement body and the named-expression map
are omitted: no staged function reads them (statement validation lives in the
unstaged `valid/function.rs` and enters the development only as a
parameter). -/
structure Function where
  name : Option String
  arguments : List FunctionArgument
  return_type : Option Handle
  local_variables : List LocalVariable
  expressions : List Expression
deriving DecidableEq, Repr

/-- `ShaderStage` (spec §3: `stage ∈ «Vertex,Fragment,Compute»`). -/
inductive ShaderStage where
  | Vertex
  | Fragment
  | Compute
deriving DecidableEq, Repr

/-- `EntryPoint` (spec §3; the early-depth-test payload is opaque to every
staged function). -/
structure EntryPoint where
  name : String
  stage : ShaderStage
  early_depth_test : Option Nat
  workgroup_size : Nat × Nat × Nat
  function : Function
deriving DecidableEq, Repr

/-- The module header (spec §3: `«version-major, version-minor,
generator-tag»`). -/
structure Header where
  version : Nat × Nat × Nat
  generator : Nat
deriving DecidableEq, Repr

/-- `Module` (spec §3): the root aggregate; each arena is its insertion-order
list, a handle indexing it. -/
structure Module where
  header : Header
  types : List Ty
  constants : List Constant
  global_variables : List GlobalVariable
  functions : List Function
  entry_points : List EntryPoint
deriving Repr

/-- `ShaderStages` — src/valid/mod.rs lines 35-44: a `u8` bitflag set with
VERTEX = 0x1, FRAGMENT = 0x2, COMPUTE = 0x4. -/
abbrev ShaderStages := Nat

/-- `ShaderStages::all()`. -/
def ShaderStages.allStages : ShaderStages := 7

/-- `ShaderStages::FRAGMENT`. -/
def ShaderStages.fragmentOnly : ShaderStages := 2

/-- Modelled from the spec: `TypeFlags` of the unstaged `valid/type.rs`
(spec §4.G.4: `TypeFlags ⊆ «DATA, SIZED, INTERFACE, HOST_SHARED, BLOCK»`),
modelled as one Boolean per named bit.  The staged code only ever tests
`contains(TypeFlags::SIZED | TypeFlags::DATA)`. -/
structure TypeFlags where
  data : Bool
  sized : Bool
  interface : Bool
  host_shared : Bool
  block : Bool
deriving DecidableEq, Repr

/-- The outcome of running a fallible Rust function: its `Ok` value, its
`Err` value, or a panic (arena indexing out of range, `unwrap`,
`panic!`, `unimplemented!`). -/
inductive RunResult (ε α : Type) where
  | ok (a : α)
  | err (e : ε)
  | panicked (msg : String)
deriving Repr, DecidableEq

instance : Monad (RunResult ε) where
  pure := .ok
  bind m f :=
    match m with
    | .ok a => f a
    | .err e => .err e
    | .panicked msg => .panicked msg

/-- Arena indexing `arena[handle]`: spec §4.A — "panics if … index is out of
range — this is a program invariant, not a runtime condition". -/
def arenaIdx (xs : List α) (h : Handle) : RunResult ε α :=
  match xs.get? h with
  | some a => .ok a
  | none => .panicked "arena index out of range"

/-- `Arena::try_get` (spec §4.A). -/
def arenaTryGet (xs : List α) (h : Handle) : Option α :=
  xs.get? h

end Javelin

namespace Javelin

/-- `ResolveError` of the unstaged typifier — opaque: the staged code never
constructs or inspects one. -/
abbrev ResolveError := Nat

/-- `ExpressionError` — src/valid/expression.rs lines 7-68.  Constructor
order and payloads follow the Rust enum; `InvalidComposeCount`'s fields are
`given` then `expected`, as declared there. -/
inductive ExpressionError where
  | DoesntExist
  | NotInScope
  | ForwardDependency (h : Handle)
  | InvalidBaseType (h : Handle)
  | InvalidIndexType (h : Handle)
  | IndexOutOfBounds (h : Handle) (index : Nat)
  | FunctionArgumentDoesntExist (i : Nat)
  | ConstantDoesntExist (h : Handle)
  | GlobalVarDoesntExist (h : Handle)
  | LocalVarDoesntExist (h : Handle)
  | InvalidPointerType (h : Handle)
  | InvalidArrayType (h : Handle)
  | ComposeTypeDoesntExist (h : Handle)
  | InvalidComposeType (h : Handle)
  | InvalidComposeCount (given : Nat) (expected : Nat)
  | InvalidComponentType (i : Nat) (h : Handle)
  | InvalidUnaryOperandType (op : UnaryOperator) (h : Handle)
  | InvalidBinaryOperandTypes (op : BinaryOperator) (l : Handle) (r : Handle)
  | InvalidSelectTypes
  | InvalidBooleanVector (h : Handle)
  | InvalidFloatArgument (h : Handle)
  | TypeResolveFailure (e : ResolveError)
  | ExpectedGlobalVariable
  | CallToUndeclaredFunction (h : Handle)
  | ExpectedImageType (h : Handle)
  | ExpectedSamplerType (h : Handle)
  | InvalidImageClass (cls : ImageClass)
deriving DecidableEq, Repr

/-- `ExpressionTypeResolver::resolve` — src/valid/expression.rs lines 77-87:
an operand handle below the root resolves to the analyzer's type for it,
anything else is a forward dependency.  `info` stands for the unstaged
analyzer's per-expression resolution `self.info[handle].ty.inner_with(types)`
(spec §4.F). -/
def ExpressionTypeResolver.resolve (root : Handle) (info : Handle → TypeInner)
    (handle : Handle) : RunResult ExpressionError TypeInner :=
  if handle < root then .ok (info handle) else .err (.ForwardDependency handle)

/-- The `Bo::Multiply` case of the operand-type table
(src/valid/expression.rs lines 391-461). -/
def multiply_good (left_inner right_inner : TypeInner) : Bool :=
  let kind_match :=
    match left_inner.scalar_kind with
    | some .Uint | some .Sint | some .Float => true
    | some .Bool | none => false
  let types_match :=
    match left_inner, right_inner with
    | .Scalar kind1 _, .Scalar kind2 _ => decide (kind1 = kind2)
    | .Vector _ kind1 _, .Scalar kind2 _ => decide (kind1 = kind2)
    | .Scalar kind1 _, .Vector _ kind2 _ => decide (kind1 = kind2)
    | .Scalar .Float _, .Matrix _ _ _ => true
    | .Matrix _ _ _, .Scalar .Float _ => true
    | .Vector size1 kind1 _, .Vector size2 kind2 _ =>
        decide (kind1 = kind2) && decide (size1 = size2)
    | .Matrix columns _ _, .Vector size .Float _ => decide (columns = size)
    | .Vector size .Float _, .Matrix _ rows _ => decide (size = rows)
    | .Matrix columns _ _, .Matrix _ rows _ => decide (columns = rows)
    | _, _ => false
  let left_width :=
    match left_inner with
    | .Scalar _ width => width
    | .Vector _ _ width => width
    | .Matrix _ _ width => width
    | _ => 0
  let right_width :=
    match right_inner with
    | .Scalar _ width => width
    | .Vector _ _ width => width
    | .Matrix _ _ width => width
    | _ => 0
  kind_match && types_match && decide (left_width = right_width)

/-- The `Bo::ShiftLeft | Bo::ShiftRight` case of the operand-type table
(src/valid/expression.rs lines 494-519).  `Ok(None)/Ok(Some size)/Err(())`
is modelled as `Option (Option VectorSize)`. -/
def shift_good (left_inner right_inner : TypeInner) : Bool :=
  let bs :=
    match left_inner with
    | .Scalar kind _ => ((some none : Option (Option VectorSize)), kind)
    | .Vector size kind _ => (some (some size), kind)
    | _ => ((none : Option (Option VectorSize)), ScalarKind.Bool)
  let shift_size :=
    match right_inner with
    | .Scalar .Uint _ => (some none : Option (Option VectorSize))
    | .Vector size .Uint _ => some (some size)
    | _ => none
  match bs.2 with
  | .Sint | .Uint => bs.1.isSome && decide (bs.1 = shift_size)
  | .Float | .Bool => false

/-- The `good` computation for `E::Binary` — src/valid/expression.rs lines
383-520, arm by arm in source order. -/
def binary_op_good (op : BinaryOperator) (left_inner right_inner : TypeInner) :
    Bool :=
  match op with
  | .Add | .Subtract | .Divide | .Modulo =>
    (match left_inner with
     | .Scalar kind _ | .Vector _ kind _ =>
       match kind with
       | .Uint | .Sint | .Float => decide (left_inner = right_inner)
       | .Bool => false
     | _ => false)
  | .Multiply => multiply_good left_inner right_inner
  | .Equal | .NotEqual =>
    left_inner.is_sized && decide (left_inner = right_inner)
  | .Less | .LessEqual | .Greater | .GreaterEqual =>
    (match left_inner with
     | .Scalar kind _ | .Vector _ kind _ =>
       match kind with
       | .Uint | .Sint | .Float => decide (left_inner = right_inner)
       | .Bool => false
     | _ => false)
  | .LogicalAnd | .LogicalOr =>
    (match left_inner with
     | .Scalar .Bool _ | .Vector _ .Bool _ => decide (left_inner = right_inner)
     | _ => false)
  | .And | .ExclusiveOr | .InclusiveOr =>
    (match left_inner with
     | .Scalar kind _ | .Vector _ kind _ =>
       match kind with
       | .Sint | .Uint => decide (left_inner = right_inner)
       | .Bool | .Float => false
     | _ => false)
  | .ShiftLeft | .ShiftRight => shift_good left_inner right_inner

/-- The per-component loop of the vector `E::Compose` case
(src/valid/expression.rs lines 175-196): each component must be a scalar or
vector of the composed kind and width; the result is the summed element
count. -/
def compose_vector_components
    (resolve : Handle → RunResult ExpressionError TypeInner)
    (kind : ScalarKind) (width : Nat) :
    Nat → List Handle → RunResult ExpressionError Nat
  | _, [] => .ok 0
  | index, comp :: rest => do
    let tin ← resolve comp
    let n ← (match tin with
      | .Scalar comp_kind comp_width =>
        if comp_kind = kind ∧ comp_width = width then
          (pure 1 : RunResult ExpressionError Nat)
        else .err (.InvalidComponentType index comp)
      | .Vector comp_size comp_kind comp_width =>
        if comp_kind = kind ∧ comp_width = width then pure comp_size.toNat
        else .err (.InvalidComponentType index comp)
      | _ => .err (.InvalidComponentType index comp))
    let total ← compose_vector_components resolve kind width (index + 1) rest
    pure (n + total)

/-- The per-component loop of the matrix and static-array `E::Compose`
cases (src/valid/expression.rs lines 221-230 and 245-254): every component
must resolve to the one expected inner type. -/
def compose_components_match
    (resolve : Handle → RunResult ExpressionError TypeInner)
    (inner : TypeInner) :
    Nat → List Handle → RunResult ExpressionError Unit
  | _, [] => .ok ()
  | index, comp :: rest => do
    let tin ← resolve comp
    if tin = inner then compose_components_match resolve inner (index + 1) rest
    else .err (.InvalidComponentType index comp)

/-- The member/component loop of the struct `E::Compose` case
(src/valid/expression.rs lines 260-269); like the Rust `zip`, it stops at
the shorter list. -/
def compose_struct_components
    (resolve : Handle → RunResult ExpressionError TypeInner)
    (types : List Ty) :
    Nat → List StructMember → List Handle → RunResult ExpressionError Unit
  | _, [], _ => .ok ()
  | _, _ :: _, [] => .ok ()
  | index, member :: ms, comp :: cs => do
    let tin ← resolve comp
    let memberTy ← arenaIdx types member.ty
    if tin = memberTy.inner then
      compose_struct_components resolve types (index + 1) ms cs
    else .err (.InvalidComponentType index comp)

/-- `Validator::validate_expression` — src/valid/expression.rs lines
90-606, arm by arm in source order.  `type_flags` stands for the validator's
`self.types[·].flags` (computed by the unstaged `valid/type.rs`); `info` and
`other_infos` stand for the unstaged analyzer's `FunctionInfo` (the resolved
type of each already-validated expression, and each declared function's
`available_stages`).  `4294967295` is the `!0` sentinel limit (`u32::MAX`). -/
def validate_expression (type_flags : Handle → TypeFlags) (root : Handle)
    (expression : Expression) (function : Function) (module : Module)
    (info : Handle → TypeInner) (other_infos : List ShaderStages) :
    RunResult ExpressionError ShaderStages :=
  let resolve := ExpressionTypeResolver.resolve root info
  match expression with
  | .Access base index => do
    let baseTi ← resolve base
    match baseTi with
    | .Vector _ _ _ | .Matrix _ _ _ | .Array _ _ _ | .Pointer _ _ => do
      let idxTi ← resolve index
      match idxTi with
      | .Scalar .Sint _ | .Scalar .Uint _ => pure ShaderStages.allStages
      | _ => .err (.InvalidIndexType index)
    | _ => .err (.InvalidBaseType base)
  | .AccessIndex base index => do
    let baseTi ← resolve base
    let limit ← (match baseTi with
      | .Vector size _ _ => (pure size.toNat : RunResult ExpressionError Nat)
      | .Matrix columns _ _ => pure columns.toNat
      | .Array _ (.Constant h) _ => do
        let c ← arenaIdx module.constants h
        (match c.to_array_length with
         | some n => pure n
         | none => .panicked "to_array_length on a non-length constant")
      | .Array _ .Dynamic _ => pure 4294967295
      | .Pointer _ _ => pure 4294967295
      | .Struct _ members => pure members.length
      | _ => .err (.InvalidBaseType base))
    if limit ≤ index then .err (.IndexOutOfBounds base index)
    else pure ShaderStages.allStages
  | .Constant h =>
    (match arenaTryGet module.constants h with
     | some _ => pure ShaderStages.allStages
     | none => .err (.ConstantDoesntExist h))
  | .Compose ty components =>
    (match arenaTryGet module.types ty with
     | none => .err (.ComposeTypeDoesntExist ty)
     | some t =>
       match t.inner with
       | .Vector size kind width => do
         let total ← compose_vector_components resolve kind width 0 components
         if size.toNat ≠ total then
           .err (.InvalidComposeCount total size.toNat)
         else pure ShaderStages.allStages
       | .Matrix columns rows width =>
         let inner := TypeInner.Vector rows .Float width
         if columns.toNat ≠ components.length then
           .err (.InvalidComposeCount components.length columns.toNat)
         else do
           compose_components_match resolve inner 0 components
           pure ShaderStages.allStages
       | .Array base (.Constant h) _ => do
         let c ← arenaIdx module.constants h
         let count ← (match c.to_array_length with
           | some n => (pure n : RunResult ExpressionError Nat)
           | none => .panicked "to_array_length on a non-length constant")
         if count ≠ components.length then
           .err (.InvalidComposeCount components.length count)
         else do
           let baseTy ← arenaIdx module.types base
           compose_components_match resolve baseTy.inner 0 components
           pure ShaderStages.allStages
       | .Struct _ members => do
         compose_struct_components resolve module.types 0 members components
         if members.length ≠ components.length then
           .err (.InvalidComposeCount components.length members.length)
         else pure ShaderStages.allStages
       | _ => .err (.InvalidComposeType ty))
  | .FunctionArgument index =>
    if function.arguments.length ≤ index then
      .err (.FunctionArgumentDoesntExist index)
    else pure ShaderStages.allStages
  | .GlobalVariable h =>
    (match arenaTryGet module.global_variables h with
     | some _ => pure ShaderStages.allStages
     | none => .err (.GlobalVarDoesntExist h))
  | .LocalVariable h =>
    (match arenaTryGet function.local_variables h with
     | some _ => pure ShaderStages.allStages
     | none => .err (.LocalVarDoesntExist h))
  | .Load pointer => do
    let ti ← resolve pointer
    match ti with
    | .Pointer base _ =>
      if (type_flags base).sized && (type_flags base).data then
        pure ShaderStages.allStages
      else .err (.InvalidPointerType pointer)
    | .ValuePointer _ _ _ => pure ShaderStages.allStages
    | _ => .err (.InvalidPointerType pointer)
  | .ImageSample _ _ _ _ _ _ _ => pure ShaderStages.allStages
  | .ImageLoad _ _ _ _ => pure ShaderStages.allStages
  | .ImageQuery image query => do
    let imgExpr ← arenaIdx function.expressions image
    match imgExpr with
    | .GlobalVariable var_handle => do
      let var ← arenaIdx module.global_variables var_handle
      let varTy ← arenaIdx module.types var.ty
      match varTy.inner with
      | .Image _ arrayed cls =>
        let can_level :=
          match cls with
          | .Sampled _ multi => !multi
          | .Storage _ _ => false
          | .Depth _ => true
        let good :=
          match query with
          | .NumLayers => arrayed
          | .Size (some _) | .NumLevels => can_level
          | .Size none | .NumSamples => !can_level
        if good then pure ShaderStages.allStages
        else .err (.InvalidImageClass cls)
      | _ => .err (.ExpectedImageType var.ty)
    | _ => .err .ExpectedGlobalVariable
  | .Unary op expr => do
    let inner ← resolve expr
    match op, inner.scalar_kind with
    | _, some .Sint => pure ShaderStages.allStages
    | _, some .Bool => pure ShaderStages.allStages
    | .Negate, some .Float => pure ShaderStages.allStages
    | .Not, some .Uint => pure ShaderStages.allStages
    | _, _ => .err (.InvalidUnaryOperandType op expr)
  | .Binary op left right => do
    let left_inner ← resolve left
    let right_inner ← resolve right
    if binary_op_good op left_inner right_inner then
      pure ShaderStages.allStages
    else .err (.InvalidBinaryOperandTypes op left right)
  | .Select condition accept reject => do
    let accept_inner ← resolve accept
    let reject_inner ← resolve reject
    let cond ← resolve condition
    let condition_good :=
      match cond with
      | .Scalar .Bool _ => accept_inner.is_sized
      | .Vector size .Bool _ =>
        (match accept_inner with
         | .Vector other_size _ _ => decide (size = other_size)
         | _ => false)
      | _ => false
    if condition_good = false ∨ accept_inner ≠ reject_inner then
      .err .InvalidSelectTypes
    else pure ShaderStages.allStages
  | .Derivative _ _ => pure ShaderStages.fragmentOnly
  | .Relational fn argument => do
    let argument_inner ← resolve argument
    match fn with
    | .All | .Any =>
      (match argument_inner with
       | .Vector _ .Bool _ => pure ShaderStages.allStages
       | _ => .err (.InvalidBooleanVector argument))
    | .IsNan | .IsInf | .IsFinite | .IsNormal =>
      (match argument_inner with
       | .Scalar .Float _ | .Vector _ .Float _ => pure ShaderStages.allStages
       | _ => .err (.InvalidFloatArgument argument))
  | .Math _ _ _ _ => pure ShaderStages.allStages
  | .As _ _ _ => pure ShaderStages.allStages
  | .Call f =>
    (match other_infos.get? f with
     | some stages => pure stages
     | none => .panicked "function info index out of range")
  | .ArrayLength expr => do
    let ti ← resolve expr
    match ti with
    | .Array _ _ _ => pure ShaderStages.allStages
    | _ => .err (.InvalidArrayType expr)

end Javelin

namespace Javelin

/-- `ConstantError` — src/valid/mod.rs lines 72-80. -/
inductive ConstantError where
  | InvalidType
  | UnresolvedComponent (h : Handle)
  | UnresolvedSize (h : Handle)
deriving DecidableEq, Repr

/-- `Validator::validate_constant` — src/valid/mod.rs lines 155-192.
`check_width` stands for `Self::check_width` of the unstaged
`valid/type.rs` (spec §4.G.3 "scalar width supported"); every theorem below
holds for every width predicate. -/
def validate_constant (check_width : ScalarKind → Nat → Bool)
    (handle : Handle) (constants : List Constant) (types : List Ty) :
    RunResult ConstantError Unit := do
  let con ← arenaIdx constants handle
  match con.inner with
  | .Scalar width value =>
    if check_width value.scalar_kind width = false then .err .InvalidType
    else pure ()
  | .Composite ty components => do
    let t ← arenaIdx types ty
    (match t.inner with
     | .Array _ .Dynamic _ => (.err .InvalidType : RunResult ConstantError Unit)
     | .Array _ (.Constant size_handle) _ =>
       if handle ≤ size_handle then .err (.UnresolvedSize size_handle)
       else pure ()
     | _ => pure ())
    (match components.find? (fun comp => decide (handle ≤ comp)) with
     | some comp => .err (.UnresolvedComponent comp)
     | none => pure ())

/-- Modelled from the spec: `EntryPointError` of the unstaged
`valid/interface.rs`.  The staged driver constructs only `Conflict`
(src/valid/mod.rs line 255); the kinds §7 lists for the unstaged
`validate_entry_point` (stage-incompatible, workgroup-size-missing, …) are
carried opaquely by `Other`, whose payload type is a parameter. -/
inductive EntryPointError (ε : Type) where
  | Conflict
  | Other (e : ε)
deriving DecidableEq, Repr

/-- `ValidationError` — src/valid/mod.rs lines 82-121.  The payloads of the
unstaged `TypeError`, `GlobalVariableError` and `FunctionError` are the type
parameters `σ`, `γ`, `δ`; the Rust variant `Type` is `TypeInvalid` here
(`Type` is reserved in Lean). -/
inductive ValidationError (σ γ δ ε : Type) where
  | TypeInvalid (handle : Handle) (name : String) (error : σ)
  | Constant (handle : Handle) (name : String) (error : ConstantError)
  | GlobalVariable (handle : Handle) (name : String) (error : γ)
  | Function (handle : Handle) (name : String) (error : δ)
  | EntryPoint (stage : ShaderStage) (name : String) (error : EntryPointError ε)
  | Corrupted
deriving DecidableEq, Repr

/-- `ModuleInfo` — src/valid/mod.rs lines 48-52, with `φ` the unstaged
analyzer's `FunctionInfo`.  The layouter field is left out: the unstaged
`Layouter::new` offers `validate` no error path (it returns a bare
`Layouter`). -/
structure ModuleInfo (φ : Type) where
  functions : List φ
  entry_points : List φ
deriving DecidableEq, Repr

/-- The constants loop of `validate` — src/valid/mod.rs lines 200-207:
first failure wrapped as `ValidationError::Constant` with the constant's
handle and `name.clone().unwrap_or_default()`. -/
def validate_constants_loop (check_width : ScalarKind → Nat → Bool)
    (module : Module) :
    Nat → List Constant → RunResult (ValidationError σ γ δ ε) Unit
  | _, [] => pure ()
  | handle, constant :: rest =>
    match validate_constant check_width handle module.constants module.types with
    | .ok _ => validate_constants_loop check_width module (handle + 1) rest
    | .err error => .err (.Constant handle (constant.name.getD "") error)
    | .panicked msg => .panicked msg

/-- The types loop of `validate` — src/valid/mod.rs lines 210-219.
`check_type` stands for the unstaged `Self::validate_type` at this module
(its `TypeInfo` result feeds only the other unstaged checkers, themselves
parameters). -/
def validate_types_loop (check_type : Handle → Ty → Except σ τ) :
    Nat → List Ty → RunResult (ValidationError σ γ δ ε) Unit
  | _, [] => pure ()
  | handle, ty :: rest =>
    match check_type handle ty with
    | .ok _ => validate_types_loop check_type (handle + 1) rest
    | .error error => .err (.TypeInvalid handle (ty.name.getD "") error)

/-- The global-variables loop of `validate` — src/valid/mod.rs lines
221-228; `check_global` stands for the unstaged `Self::validate_global_var`
at this module. -/
def validate_globals_loop (check_global : GlobalVariable → Except γ Unit) :
    Nat → List GlobalVariable → RunResult (ValidationError σ γ δ ε) Unit
  | _, [] => pure ()
  | handle, var :: rest =>
    match check_global var with
    | .ok _ => validate_globals_loop check_global (handle + 1) rest
    | .error error => .err (.GlobalVariable handle (var.name.getD "") error)

/-- The functions loop of `validate` — src/valid/mod.rs lines 236-247: each
function is checked against the `ModuleInfo` accumulated so far and its info
pushed, the first failure wrapped as `ValidationError::Function`. -/
def validate_functions_loop
    (check_function : Function → ModuleInfo φ → Except δ φ) :
    Nat → ModuleInfo φ → List Function →
      RunResult (ValidationError σ γ δ ε) (ModuleInfo φ)
  | _, mod_info, [] => pure mod_info
  | handle, mod_info, fn :: rest =>
    match check_function fn mod_info with
    | .ok info =>
      validate_functions_loop check_function (handle + 1)
        ⟨mod_info.functions ++ [info], mod_info.entry_points⟩ rest
    | .error error => .err (.Function handle (fn.name.getD "") error)

/-- The entry-point loop of `validate` — src/valid/mod.rs lines 249-269:
`ep_map.insert((ep.stage, &ep.name))` returning false (the pair was seen) is
`EntryPointError::Conflict` before the entry point's own check runs; the
hash set is modelled by the list of pairs seen so far. -/
def validate_entry_points_loop
    (check_entry_point : EntryPoint → ModuleInfo φ → Except (EntryPointError ε) φ) :
    List (ShaderStage × String) → ModuleInfo φ → List EntryPoint →
      RunResult (ValidationError σ γ δ ε) (ModuleInfo φ)
  | _, mod_info, [] => pure mod_info
  | seen, mod_info, ep :: rest =>
    if (ep.stage, ep.name) ∈ seen then
      .err (.EntryPoint ep.stage ep.name .Conflict)
    else
      match check_entry_point ep mod_info with
      | .ok info =>
        validate_entry_points_loop check_entry_point ((ep.stage, ep.name) :: seen)
          ⟨mod_info.functions, mod_info.entry_points ++ [info]⟩ rest
      | .error error => .err (.EntryPoint ep.stage ep.name error)

/-- `Validator::validate` — src/valid/mod.rs lines 195-272: constants, then
types, then global variables, then functions, then entry points, stopping at
the first failure.  The unstaged sub-validators (`validate_type`,
`validate_global_var`, `validate_function`, `validate_entry_point`) and the
unstaged analyzer's `FunctionInfo` type are parameters, so every theorem
below holds for the real ones in particular; `Layouter::new` (line 198)
returns no error and is dropped with `ModuleInfo.layouter`. -/
def validate (check_width : ScalarKind → Nat → Bool)
    (check_type : Handle → Ty → Except σ τ)
    (check_global : GlobalVariable → Except γ Unit)
    (check_function : Function → ModuleInfo φ → Except δ φ)
    (check_entry_point : EntryPoint → ModuleInfo φ → Except (EntryPointError ε) φ)
    (module : Module) :
    RunResult (ValidationError σ γ δ ε) (ModuleInfo φ) := do
  validate_constants_loop check_width module 0 module.constants
  validate_types_loop check_type 0 module.types
  validate_globals_loop check_global 0 module.global_variables
  let mod_info ← validate_functions_loop check_function 0 ⟨[], []⟩ module.functions
  validate_entry_points_loop check_entry_point [] mod_info module.entry_points

/-- The output back-ends `examples/convert.rs` can dispatch to. -/
inductive OutputBackend where
  | Msl
  | Spv
deriving DecidableEq, Repr

/-- Rust `str::ends_with(&str)`: the bytes of the suffix end the string; on
well-formed UTF-8 this is exactly character-list suffixhood, which is the
executable form used here. -/
def str_ends_with (s suffix : String) : Bool :=
  decide (suffix.data.IsSuffix s.data)

/-- The output dispatch of `main` — examples/convert.rs lines 82-127: an
output path ending in `.metal` selects the MSL text back-end, else one
ending in `.spv` the binary SPIR-V back-end, else the driver panics
`Unknown output`; `none` stands for that panic.  Every failing branch of
`main` (`unwrap`, `expect`, explicit `panic!`) aborts the process the same
way. -/
def output_backend (out_path : String) : Option OutputBackend :=
  if str_ends_with out_path ".metal" then some .Msl
  else if str_ends_with out_path ".spv" then some .Spv
  else none

/-- `w.to_le_bytes()` for one SPIR-V word — examples/convert.rs line 120;
a word is a `u32`. -/
def spv_word_le_bytes (w : Nat) : List Nat :=
  [w % 256, w / 256 % 256, w / 65536 % 256, w / 16777216 % 256]

/-- The byte serialisation of the SPIR-V word stream — examples/convert.rs
lines 117-122: the words' little-endian bytes in order. -/
def spv_bytes (words : List Nat) : List Nat :=
  words.foldl (fun v w => v ++ spv_word_le_bytes (w % 4294967296)) []

end Javelin

namespace Javelin

/-- `Token` — src/front/glsl/preprocessor.rs lines 286-308.  The `f32`/`f64`
payloads of `Float`/`Double` are modelled by their `Display` rendering, the
only thing the staged preprocessor ever reads off them. -/
inductive Token where
  | Separator (c : Char)
  | DoubleColon
  | Paren (c : Char)
  | Integral (n : Nat)
  | Float (text : String)
  | Double (text : String)
  | Word (w : String)
  | Operation (c : Char)
  | OpAssign (c : Char)
  | LogicalOperation (c : Char)
  | ShiftOperation (c : Char)
  | Unknown (c : Char)
  | LineComment
  | MultiLineCommentOpen
  | MultiLineCommentClose
  | Preprocessor
  | End
  | Selection
  | Sufix (c : Char)
  | TokenPasting
deriving DecidableEq, Repr

/-- `TokenMetadata` — src/front/glsl/preprocessor.rs lines 271-276; the
`chars` range is its two bounds. -/
structure TokenMetadata where
  token : Token
  line : Nat
  chars_start : Nat
  chars_end : Nat
deriving DecidableEq, Repr

/-- The `fmt::Display` of `Token` — src/front/glsl/preprocessor.rs lines
337-362 (this, not `type_to_string`, renders the `#error` message). -/
def Token.display : Token → String
  | .Separator c => String.singleton c
  | .DoubleColon => ":"
  | .Paren c => String.singleton c
  | .Integral n => toString n
  | .Float t => t
  | .Double t => t
  | .Word w => w
  | .Operation c => String.singleton c
  | .OpAssign c => String.singleton c ++ "="
  | .LogicalOperation c => String.singleton c ++ "="
  | .ShiftOperation c => String.singleton c ++ String.singleton c
  | .Unknown c => String.singleton c
  | .LineComment => "//"
  | .MultiLineCommentOpen => "/*"
  | .MultiLineCommentClose => "*/"
  | .Preprocessor => "#"
  | .End => ""
  | .Selection => "?"
  | .Sufix c => String.singleton c ++ String.singleton c
  | .TokenPasting => "##"

/-- `ErrorKind` — src/front/glsl/preprocessor.rs lines 364-398. -/
inductive ErrorKind where
  | UnexpectedToken (expected : List Token) (got : TokenMetadata)
  | ExpectedEOL (got : TokenMetadata)
  | UnknownPragma (pragma : String)
  | ExtensionNotSupported (extension : String)
  | AllExtensionsEnabled
  | ExtensionUnknownBehavior (behavior : String)
  | UnsupportedVersion (version : Nat)
  | UnsupportedProfile (profile : String)
  | UnknownProfile (profile : String)
  | UnknownPreprocessorDirective (directive : String)
  | ReservedMacro
  | EOL
  | EOF
deriving DecidableEq, Repr

/-- `Error` — src/front/glsl/preprocessor.rs lines 452-455. -/
structure Error where
  kind : ErrorKind
deriving DecidableEq, Repr

/-- Rust debug-build `usize` subtraction: the subtraction the preprocessor
performs on character positions, which panics when the subtrahend is the
larger. -/
def usize_sub (a b : Nat) : RunResult Error Nat :=
  if a < b then .panicked "attempt to subtract with overflow" else pure (a - b)

/-- Rust `as usize` on a signed value: two's-complement wrap into the
unsigned 64-bit range. -/
def int_as_usize (i : Int) : Nat := (i % 18446744073709551616).toNat

/-- The macro table (`FastHashMap<String, Vec<TokenMetadata>>`): lookup.
Only get, insert and remove are ever used, so an association list models
it. -/
def macrosGet (m : List (String × List TokenMetadata)) (name : String) :
    Option (List TokenMetadata) :=
  match m.find? (fun p => decide (p.1 = name)) with
  | some p => some p.2
  | none => none

/-- Macro-table insert (replacing any previous binding, as HashMap does). -/
def macrosInsert (m : List (String × List TokenMetadata)) (name : String)
    (body : List TokenMetadata) : List (String × List TokenMetadata) :=
  (m.filter fun p => decide (p.1 ≠ name)) ++ [(name, body)]

/-- Macro-table remove. -/
def macrosRemove (m : List (String × List TokenMetadata)) (name : String) :
    List (String × List TokenMetadata) :=
  m.filter fun p => decide (p.1 ≠ name)

/-- The position-rebasing loop of `get_macro!` —
src/front/glsl/preprocessor.rs lines 574-588: each expansion token moves to
the invocation line and its character range is shifted to start at the
invocation site, preserving the gaps between expansion tokens. -/
def getMacroRebase (line : Nat) (site_start : Nat) :
    Nat → Nat → List TokenMetadata → RunResult Error (List TokenMetadata)
  | _, _, [] => pure []
  | start, offset, t :: rest => do
    let length ← usize_sub t.chars_end t.chars_start
    let delta ← usize_sub t.chars_start start
    let rest' ← getMacroRebase line site_start t.chars_start (offset + delta) rest
    pure (⟨t.token, line, site_start + (offset + delta),
      length + site_start + (offset + delta)⟩ :: rest')

/-- The `get_macro!` macro of `parse_preprocessor` —
src/front/glsl/preprocessor.rs lines 555-593: `__LINE__`, `__FILE__` and
`__VERSION__` are built in (the first applies `line_offset` and the
`as usize` wrap of the source), anything else is a macro-table lookup whose
expansion is rebased to the invocation site (`tokens[0]` panics on an empty
macro body). -/
def getMacro (macros : List (String × List TokenMetadata)) (line_offset : Int)
    (name : String) (tok : TokenMetadata) :
    RunResult Error (Option (List TokenMetadata)) :=
  match name with
  | "__LINE__" =>
    pure (some [⟨.Integral (int_as_usize ((tok.line : Int) + line_offset + 1)), 0, 0, 1⟩])
  | "__FILE__" => pure (some [⟨.Integral 0, 0, 0, 1⟩])
  | "__VERSION__" => pure (some [⟨.Integral 460, 0, 0, 1⟩])
  | _ =>
    match macrosGet macros name with
    | none => pure none
    | some body =>
      match body.head? with
      | none => .panicked "index out of bounds"
      | some first => do
        let rebased ← getMacroRebase tok.line tok.chars_start first.chars_start 0 body
        pure (some rebased)

/-- The repeated fetch idiom of `parse_preprocessor`: `if token.line ==
lexer.peek().ok_or(EOF)?.line { lexer.next().ok_or(EOF)? } else { return
Err(EOL) }` — an exhausted stream is EOF, a next token on another line EOL,
otherwise the token is consumed. -/
def next_on_line (line : Nat) (ts : List TokenMetadata) :
    RunResult Error (TokenMetadata × List TokenMetadata) :=
  match ts with
  | [] => .err ⟨.EOF⟩
  | t :: rest => if t.line = line then pure (t, rest) else .err ⟨.EOL⟩

/-- `if let Token::Word(name) = t.token { name } else { return
Err(UnexpectedToken ...) }`. -/
def expect_word (t : TokenMetadata) : RunResult Error String :=
  match t.token with
  | .Word name => pure name
  | _ => .err ⟨.UnexpectedToken [.Word ""] t⟩

/-- `if let Token::Integral(int) = t.token { int } else { return
Err(UnexpectedToken ...) }`. -/
def expect_integral (t : TokenMetadata) : RunResult Error Nat :=
  match t.token with
  | .Integral n => pure n
  | _ => .err ⟨.UnexpectedToken [.Integral 0] t⟩

/-- The macro-body collection loop of the `define` arm —
src/front/glsl/preprocessor.rs lines 664-685: tokens on the directive's line
are gathered (words already bound as macros expand through `get_macro!`),
stopping before the first token of a later line; an exhausted stream inside
the loop condition is EOF. -/
def collect_macro_tokens (macros : List (String × List TokenMetadata))
    (line_offset : Int) (line : Nat) :
    List TokenMetadata → List TokenMetadata →
      RunResult Error (List TokenMetadata × List TokenMetadata)
  | _, [] => .err ⟨.EOF⟩
  | acc, t :: rest =>
    if t.line = line then
      match t.token with
      | .Word w => do
        let mopt ← getMacro macros line_offset w t
        match mopt with
        | some stream =>
          collect_macro_tokens macros line_offset line (acc ++ stream) rest
        | none => collect_macro_tokens macros line_offset line (acc ++ [t]) rest
      | _ => collect_macro_tokens macros line_offset line (acc ++ [t]) rest
    else pure (acc, t :: rest)

/-- The message loop of the `#error` arm — src/front/glsl/preprocessor.rs
lines 737-750: tokens on the directive's line are appended to the message,
each preceded by the spaces restoring its column relative to the first
message token (`usize` subtractions). -/
def error_message_loop (first_byte : Nat) (line : Nat) :
    String → List TokenMetadata → RunResult Error String
  | acc, [] => pure acc
  | acc, t :: rest =>
    if t.line = line then do
      let spacing ← usize_sub t.chars_start (first_byte + acc.length)
      error_message_loop first_byte line
        (acc ++ String.mk (List.replicate spacing ' ') ++ t.token.display) rest
    else pure acc

/-- The three-token `(word)` argument of `#pragma optimize` and
`#pragma debug` — src/front/glsl/preprocessor.rs lines 785-863 and 866-944
(the two arms are verbatim copies). -/
def pragma_paren_args (line : Nat) (ts : List TokenMetadata) :
    RunResult Error (List TokenMetadata) := do
  let (open_tok, ts1) ← next_on_line line ts
  if open_tok.token = .Paren '(' then do
    let (status_tok, ts2) ← next_on_line line ts1
    let _ ← expect_word status_tok
    let (close_tok, ts3) ← next_on_line line ts2
    if close_tok.token = .Paren ')' then pure ts3
    else .err ⟨.UnexpectedToken [.Paren ')'] close_tok⟩
  else .err ⟨.UnexpectedToken [.Paren '('] open_tok⟩

/-- The running state of `parse_preprocessor`'s loop: the output tokens, the
macro table, `line_offset : i32` and the pending position `offset : (usize,
isize)`. -/
structure PPState where
  tokens : List TokenMetadata
  macros : List (String × List TokenMetadata)
  line_offset : Int
  offset_line : Nat
  offset_delta : Int
deriving Repr

/-- The position adjustment applied to each emitted token —
src/front/glsl/preprocessor.rs lines 1235-1238 (and its copies): when the
pending offset sits on the token's line, both bounds shift by it with the
source's `as isize`/`as usize` wraps. -/
def apply_offset (offset_line : Nat) (offset_delta : Int)
    (t : TokenMetadata) : TokenMetadata :=
  if offset_line = t.line then
    ⟨t.token, t.line, int_as_usize ((t.chars_start : Int) + offset_delta),
      int_as_usize ((t.chars_end : Int) + offset_delta)⟩
  else t

/-- One directive of `parse_preprocessor` —
src/front/glsl/preprocessor.rs lines 628-1222, arm by arm in source order;
the result is the state and stream after the arm.  The `if`-family arms are
`unimplemented!()`, and the `error` arm collects its message and ends in
`panic!(error_message)`, constructing no `Error`. -/
def run_directive (st : PPState) (token : TokenMetadata) (op : String)
    (ts : List TokenMetadata) :
    RunResult Error (PPState × List TokenMetadata) :=
  match op with
  | "define" => do
    let (name_token, ts1) ← next_on_line token.line ts
    let macro_name ← expect_word name_token
    if macro_name.startsWith "GL_" then .err ⟨.ReservedMacro⟩
    else do
      let (macro_tokens, ts2) ←
        collect_macro_tokens st.macros st.line_offset token.line [] ts1
      pure (⟨st.tokens, macrosInsert st.macros macro_name macro_tokens,
        st.line_offset, st.offset_line, st.offset_delta⟩, ts2)
  | "undef" => do
    let (name_token, ts1) ← next_on_line token.line ts
    let macro_name ← expect_word name_token
    pure (⟨st.tokens, macrosRemove st.macros macro_name,
      st.line_offset, st.offset_line, st.offset_delta⟩, ts1)
  | "if" => .panicked "not implemented"
  | "ifdef" => .panicked "not implemented"
  | "ifndef" => .panicked "not implemented"
  | "else" => .panicked "not implemented"
  | "elif" => .panicked "not implemented"
  | "endif" => .panicked "not implemented"
  | "error" =>
    (match ts with
     | [] => .err ⟨.EOF⟩
     | t0 :: rest0 => do
       let message ← error_message_loop t0.chars_start token.line "" (t0 :: rest0)
       .panicked message)
  | "pragma" => do
    let (pragma_token, ts1) ← next_on_line token.line ts
    let pragma ← expect_word pragma_token
    match pragma with
    | "optimize" => do
      let ts2 ← pragma_paren_args token.line ts1
      pure (st, ts2)
    | "debug" => do
      let ts2 ← pragma_paren_args token.line ts1
      pure (st, ts2)
    | _ => .err ⟨.UnknownPragma pragma⟩
  | "extension" => do
    let (name_tok, ts1) ← next_on_line token.line ts
    let extension_name ← expect_word name_tok
    let (sep_tok, ts2) ← next_on_line token.line ts1
    if sep_tok.token = .DoubleColon then do
      let (behavior_tok, ts3) ← next_on_line token.line ts2
      let behavior ← expect_word behavior_tok
      match extension_name with
      | "all" =>
        if behavior = "require" ∨ behavior = "enable" then
          .err ⟨.AllExtensionsEnabled⟩
        else if behavior = "warn" ∨ behavior = "disable" then pure (st, ts3)
        else .err ⟨.ExtensionUnknownBehavior behavior⟩
      | _ =>
        if behavior = "require" then
          .err ⟨.ExtensionNotSupported extension_name⟩
        else if behavior = "enable" ∨ behavior = "warn" ∨ behavior = "disable"
          then pure (st, ts3)
        else .err ⟨.ExtensionUnknownBehavior behavior⟩
    else .err ⟨.UnexpectedToken [.DoubleColon] sep_tok⟩
  | "version" => do
    let (version_tok, ts1) ← next_on_line token.line ts
    let version ← expect_integral version_tok
    if version = 450 ∨ version = 460 then do
      let (profile_tok, ts2) ← next_on_line token.line ts1
      let profile ← expect_word profile_tok
      if profile = "core" then
        pure (⟨st.tokens,
          macrosInsert st.macros "GL_core_profile" [⟨.Integral 1, 0, 0, 1⟩],
          st.line_offset, st.offset_line, st.offset_delta⟩, ts2)
      else if profile = "compatibility" ∨ profile = "es" then
        .err ⟨.UnsupportedProfile profile⟩
      else .err ⟨.UnknownProfile profile⟩
    else .err ⟨.UnsupportedVersion version⟩
  | "line" => do
    let (line_tok, ts1) ← next_on_line token.line ts
    let line_value ← expect_integral line_tok
    let (src_tok, ts2) ← next_on_line token.line ts1
    let _ ← expect_word src_tok
    pure (⟨st.tokens, st.macros, (line_value : Int) - (token.line : Int),
      st.offset_line, st.offset_delta⟩, ts2)
  | _ => .err ⟨.UnknownPreprocessorDirective op⟩

/-- The loop of `parse_preprocessor` — src/front/glsl/preprocessor.rs lines
595-1283.  Every iteration consumes at least the leading token, so the fuel
`parse_preprocessor` supplies never runs out; a `#` whose next token sits on
a later line is skipped (`continue`), a directive is run and the line must
then be exhausted (`ExpectedEOL`), an `End` token is emitted and the loop
returns, a word expands through `get_macro!` (updating the pending position
offset from the expansion's last token), anything else is emitted as is. -/
def parse_go : Nat → PPState → List TokenMetadata →
    RunResult Error (List TokenMetadata)
  | 0, _, _ => .panicked "fuel exhausted"
  | _ + 1, _, [] => .err ⟨.EOF⟩
  | fuel + 1, st, token :: rest =>
    match token.token with
    | .Preprocessor =>
      (match rest with
       | [] => .err ⟨.EOF⟩
       | op_token :: rest1 =>
         if op_token.line = token.line then do
           let op ← expect_word op_token
           let (st', rest') ← run_directive st token op rest1
           match rest'.head? with
           | some t' =>
             if t'.line = token.line then .err ⟨.ExpectedEOL t'⟩
             else parse_go fuel st' rest'
           | none => parse_go fuel st' rest'
         else parse_go fuel st rest)
    | .End =>
      pure (st.tokens ++ [apply_offset st.offset_line st.offset_delta token])
    | .Word w => do
      let mopt ← getMacro st.macros st.line_offset w token
      match mopt with
      | some stream =>
        let adjusted := stream.map (apply_offset st.offset_line st.offset_delta)
        (match adjusted.getLast? with
         | some last =>
           parse_go fuel
             ⟨st.tokens ++ adjusted, st.macros, st.line_offset,
               last.line, (last.chars_end : Int) - (token.chars_end : Int)⟩ rest
         | none => .panicked "last on an empty expansion")
      | none =>
        parse_go fuel
          ⟨st.tokens ++ [apply_offset st.offset_line st.offset_delta token],
            st.macros, st.line_offset, st.offset_line, st.offset_delta⟩ rest
    | _ =>
      parse_go fuel
        ⟨st.tokens ++ [apply_offset st.offset_line st.offset_delta token],
          st.macros, st.line_offset, st.offset_line, st.offset_delta⟩ rest

/-- The two predefined macros — src/front/glsl/preprocessor.rs lines
538-553: `GL_SPIRV` and `VULKAN`, each the integer 100. -/
def initial_macros : List (String × List TokenMetadata) :=
  [("GL_SPIRV", [⟨.Integral 100, 0, 0, 1⟩]),
   ("VULKAN", [⟨.Integral 100, 0, 0, 1⟩])]

/-- `parse_preprocessor` — src/front/glsl/preprocessor.rs lines 529-1284,
on the comment-stripped token stream.  The fuel bound exceeds the iteration
count (each iteration consumes at least one token). -/
def parse_preprocessor (stripped_tokens : List TokenMetadata) :
    RunResult Error (List TokenMetadata) :=
  parse_go (stripped_tokens.length + 1) ⟨[], initial_macros, 0, 0, 0⟩
    stripped_tokens

end Javelin

namespace Javelin

/-- Whether an `Except` value is `Ok` (used to say "this check passes"
without naming the payload). -/
def exceptIsOk : Except ε α → Bool
  | .ok _ => true
  | .error _ => false

/-- Specification-side: every constant of the module passes
`validate_constant`. -/
def constants_pass (check_width : ScalarKind → Nat → Bool) (module : Module) :
    Prop :=
  ∀ (i : Nat) (c : Constant), module.constants[i]? = some c →
    validate_constant check_width i module.constants module.types = .ok ()

/-- Specification-side: every type of the module passes the type check. -/
def types_pass (check_type : Handle → Ty → Except σ τ) (module : Module) :
    Prop :=
  ∀ (i : Nat) (t : Ty), module.types[i]? = some t →
    exceptIsOk (check_type i t) = true

/-- Specification-side: every global variable passes the global check. -/
def globals_pass (check_global : GlobalVariable → Except γ Unit)
    (module : Module) : Prop :=
  ∀ (i : Nat) (v : GlobalVariable), module.global_variables[i]? = some v →
    exceptIsOk (check_global v) = true

/-- Specification-side: folding the function check over a function list the
way the functions loop does, `none` at the first failure. -/
def function_infos_acc (check_function : Function → ModuleInfo φ → Except δ φ) :
    ModuleInfo φ → List Function → Option (ModuleInfo φ)
  | mi, [] => some mi
  | mi, fn :: rest =>
    match check_function fn mi with
    | .ok info =>
      function_infos_acc check_function ⟨mi.functions ++ [info], mi.entry_points⟩ rest
    | .error _ => none

/-- Specification-side: folding the entry-point check and the seen-pair set
over an entry-point list the way the entry-point loop does, `none` at the
first conflict or failure. -/
def ep_acc (check_entry_point : EntryPoint → ModuleInfo φ → Except (EntryPointError ε) φ) :
    List (ShaderStage × String) → ModuleInfo φ → List EntryPoint →
      Option (List (ShaderStage × String) × ModuleInfo φ)
  | seen, mi, [] => some (seen, mi)
  | seen, mi, ep :: rest =>
    if (ep.stage, ep.name) ∈ seen then none
    else
      match check_entry_point ep mi with
      | .ok info =>
        ep_acc check_entry_point ((ep.stage, ep.name) :: seen)
          ⟨mi.functions, mi.entry_points ++ [info]⟩ rest
      | .error _ => none

/-- Specification-side: the element count a component contributes to a
vector `Compose` (1 per scalar, the vector's size per vector). -/
def vector_component_count (info : Handle → TypeInner) (comps : List Handle) :
    Nat :=
  (comps.map fun c =>
    match info c with
    | .Scalar _ _ => 1
    | .Vector s _ _ => s.toNat
    | _ => 0).sum

/-- Specification-side: a component resolves to a scalar or vector of the
composed vector's kind and width. -/
def vector_component_matches (kind : ScalarKind) (width : Nat)
    (info : Handle → TypeInner) (c : Handle) : Prop :=
  info c = .Scalar kind width ∨ ∃ s, info c = .Vector s kind width

/-- Specification-side: reading one little-endian 4-byte group back into a
word. -/
def le_word (b0 b1 b2 b3 : Nat) : Nat :=
  b0 + 256 * b1 + 65536 * b2 + 16777216 * b3

/-- Specification-side: reading a byte stream back into its words, 4 bytes
at a time. -/
def le_words_of_bytes : List Nat → List Nat
  | b0 :: b1 :: b2 :: b3 :: rest => le_word b0 b1 b2 b3 :: le_words_of_bytes rest
  | _ => []

end Javelin

namespace Javelin

/-! ### Generic reduction lemmas -/

@[simp] theorem RunResult.pure_def {ε α : Type} (a : α) :
    (pure a : RunResult ε α) = .ok a := rfl

@[simp] theorem RunResult.bind_ok {ε α β : Type} (a : α)
    (f : α → RunResult ε β) : ((RunResult.ok a : RunResult ε α) >>= f) = f a :=
  rfl

@[simp] theorem RunResult.bind_err {ε α β : Type} (e : ε)
    (f : α → RunResult ε β) :
    ((RunResult.err e : RunResult ε α) >>= f) = .err e := rfl

@[simp] theorem RunResult.bind_panicked {ε α β : Type} (msg : String)
    (f : α → RunResult ε β) :
    ((RunResult.panicked msg : RunResult ε α) >>= f) = .panicked msg := rfl

theorem resolve_of_lt {root h : Handle} (info : Handle → TypeInner)
    (hlt : h < root) :
    ExpressionTypeResolver.resolve root info h = .ok (info h) := by
  simp [ExpressionTypeResolver.resolve, hlt]

theorem resolve_of_ge {root h : Handle} (info : Handle → TypeInner)
    (hge : root ≤ h) :
    ExpressionTypeResolver.resolve root info h = .err (.ForwardDependency h) := by
  simp [ExpressionTypeResolver.resolve, Nat.not_lt.mpr hge]

end Javelin

namespace Javelin

/-- C2: within a function, `validate_expression` resolves an operand handle
`h` of the expression at `root` exactly when `h < root` (yielding the
analyzer's type), and any operand handle `h ≥ root` fails with
`ExpressionError::ForwardDependency(h)`; in particular, on the expression
arena `[Binary(Add,1,2), Constant(0), Constant(0)]` the first expression
fails with `ForwardDependency(1)`. -/
theorem C2_operand_forward_dependency :
    (∀ (root h : Handle) (info : Handle → TypeInner), h < root →
      ExpressionTypeResolver.resolve root info h = .ok (info h))
  ∧ (∀ (root h : Handle) (info : Handle → TypeInner), root ≤ h →
      ExpressionTypeResolver.resolve root info h = .err (.ForwardDependency h))
  ∧ validate_expression (fun _ => ⟨false, false, false, false, false⟩) 0
      (.Binary .Add 1 2)
      ⟨none, [], none, [], [.Binary .Add 1 2, .Constant 0, .Constant 0]⟩
      ⟨⟨(0, 0, 0), 0⟩, [⟨none, .Scalar .Float 4⟩],
        [⟨none, none, .Scalar 4 .Float⟩], [], [], []⟩
      (fun _ => .Scalar .Float 4) []
      = .err (.ForwardDependency 1) := by
  refine ⟨?_, ?_, ?_⟩
  · exact fun root h info hlt => resolve_of_lt info hlt
  · exact fun root h info hge => resolve_of_ge info hge
  · rfl

end Javelin

namespace Javelin

/-- C6 counterexample: the claim says `Negate` requires a numeric operand
(so `Negate` on `Uint` is accepted and on `Bool` rejected), but the code
accepts `Negate` on a `Bool` scalar and rejects `Negate` on a `Uint`
scalar. -/
theorem C6_unary_counterexample :
    validate_expression (fun _ => ⟨false, false, false, false, false⟩) 1
        (.Unary .Negate 0) ⟨none, [], none, [], []⟩
        ⟨⟨(0, 0, 0), 0⟩, [], [], [], [], []⟩ (fun _ => .Scalar .Bool 1) []
      = .ok ShaderStages.allStages
  ∧ validate_expression (fun _ => ⟨false, false, false, false, false⟩) 1
        (.Unary .Negate 0) ⟨none, [], none, [], []⟩
        ⟨⟨(0, 0, 0), 0⟩, [], [], [], [], []⟩ (fun _ => .Scalar .Uint 4) []
      = .err (.InvalidUnaryOperandType .Negate 0) := ⟨rfl, rfl⟩

/-- C6 (amended): `validate_expression` accepts `Unary«op, expr»` exactly
when the operand's scalar kind is `Sint` or `Bool` (either operator), or
`op` is `Negate` with a `Float` operand, or `op` is `Not` with a `Uint`
operand; every other combination (including `Negate` on `Uint` and any
operand without a scalar kind) fails with
`InvalidUnaryOperandType(op, expr)`. -/
theorem C6_unary_operand_rule :
    ∀ (tf : Handle → TypeFlags) (fn : Function) (mod : Module)
      (os : List ShaderStages) (root : Handle) (info : Handle → TypeInner)
      (op : UnaryOperator) (expr : Handle), expr < root →
      (validate_expression tf root (.Unary op expr) fn mod info os
          = .ok ShaderStages.allStages
        ↔ (info expr).scalar_kind = some .Sint
          ∨ (info expr).scalar_kind = some .Bool
          ∨ (op = .Negate ∧ (info expr).scalar_kind = some .Float)
          ∨ (op = .Not ∧ (info expr).scalar_kind = some .Uint))
      ∧ (¬((info expr).scalar_kind = some .Sint
          ∨ (info expr).scalar_kind = some .Bool
          ∨ (op = .Negate ∧ (info expr).scalar_kind = some .Float)
          ∨ (op = .Not ∧ (info expr).scalar_kind = some .Uint)) →
        validate_expression tf root (.Unary op expr) fn mod info os
          = .err (.InvalidUnaryOperandType op expr)) := by
  intro tf fn mod os root info op expr hlt
  have hres := resolve_of_lt info hlt
  rcases op <;>
    rcases hsk : (info expr).scalar_kind with _ | k <;>
      (try rcases k) <;>
        simp [validate_expression, hres, hsk]

/-- C6 witness: instantiating the amended rule at `Not` on a `Uint`
scalar. -/
theorem C6_unary_operand_rule_witness :
    validate_expression (fun _ => ⟨false, false, false, false, false⟩) 1
        (.Unary .Not 0) ⟨none, [], none, [], []⟩
        ⟨⟨(0, 0, 0), 0⟩, [], [], [], [], []⟩ (fun _ => .Scalar .Uint 4) []
      = .ok ShaderStages.allStages :=
  ((C6_unary_operand_rule (fun _ => ⟨false, false, false, false, false⟩)
      ⟨none, [], none, [], []⟩ ⟨⟨(0, 0, 0), 0⟩, [], [], [], [], []⟩ []
      1 (fun _ => .Scalar .Uint 4) .Not 0 (by decide)).1).mpr
    (Or.inr (Or.inr (Or.inr ⟨rfl, rfl⟩)))

end Javelin

namespace Javelin

/-- C3 counterexample: the claim says every index is accepted on a
dynamic-array base, but the code's sentinel limit is `!0 = 4294967295`
(`u32::MAX`), so `AccessIndex` with index `4294967295` on a dynamic-array
base fails with `IndexOutOfBounds`. -/
theorem C3_access_index_counterexample :
    validate_expression (fun _ => ⟨false, false, false, false, false⟩) 1
        (.AccessIndex 0 4294967295) ⟨none, [], none, [], []⟩
        ⟨⟨(0, 0, 0), 0⟩, [], [], [], [], []⟩
        (fun _ => .Array 0 .Dynamic none) []
      = .err (.IndexOutOfBounds 0 4294967295) := rfl

/-- C3 (amended): for `AccessIndex«base,index»` with a resolvable base,
validation fails with `IndexOutOfBounds(base,index)` exactly when `index`
reaches the static limit of the base's resolved type — the vector's size,
the matrix's column count, the struct's member count, the constant length
for static arrays, and the sentinel `4294967295` (`u32::MAX`, so every
index but `u32::MAX` itself passes) for dynamic arrays and pointers — and a
base of any other type fails with `InvalidBaseType(base)`; in particular a
`vec3<f32>` base with index 3 yields `IndexOutOfBounds(base, 3)`. -/
theorem C3_access_index_rule :
    (∀ (tf : Handle → TypeFlags) (fn : Function) (mod : Module)
      (os : List ShaderStages) (root : Handle) (info : Handle → TypeInner)
      (base : Handle) (index : Nat), base < root →
      (∀ s k w, info base = .Vector s k w →
        (validate_expression tf root (.AccessIndex base index) fn mod info os
            = .ok ShaderStages.allStages ↔ index < s.toNat)
        ∧ (s.toNat ≤ index →
          validate_expression tf root (.AccessIndex base index) fn mod info os
            = .err (.IndexOutOfBounds base index)))
      ∧ (∀ c r w, info base = .Matrix c r w →
        (validate_expression tf root (.AccessIndex base index) fn mod info os
            = .ok ShaderStages.allStages ↔ index < c.toNat)
        ∧ (c.toNat ≤ index →
          validate_expression tf root (.AccessIndex base index) fn mod info os
            = .err (.IndexOutOfBounds base index)))
      ∧ (∀ b members, info base = .Struct b members →
        (validate_expression tf root (.AccessIndex base index) fn mod info os
            = .ok ShaderStages.allStages ↔ index < members.length)
        ∧ (members.length ≤ index →
          validate_expression tf root (.AccessIndex base index) fn mod info os
            = .err (.IndexOutOfBounds base index)))
      ∧ (∀ ab sh st c n, info base = .Array ab (.Constant sh) st →
          mod.constants[sh]? = some c → c.to_array_length = some n →
        (validate_expression tf root (.AccessIndex base index) fn mod info os
            = .ok ShaderStages.allStages ↔ index < n)
        ∧ (n ≤ index →
          validate_expression tf root (.AccessIndex base index) fn mod info os
            = .err (.IndexOutOfBounds base index)))
      ∧ (∀ ab st, info base = .Array ab .Dynamic st →
        (validate_expression tf root (.AccessIndex base index) fn mod info os
            = .ok ShaderStages.allStages ↔ index < 4294967295)
        ∧ (4294967295 ≤ index →
          validate_expression tf root (.AccessIndex base index) fn mod info os
            = .err (.IndexOutOfBounds base index)))
      ∧ (∀ pb sp, info base = .Pointer pb sp →
        (validate_expression tf root (.AccessIndex base index) fn mod info os
            = .ok ShaderStages.allStages ↔ index < 4294967295)
        ∧ (4294967295 ≤ index →
          validate_expression tf root (.AccessIndex base index) fn mod info os
            = .err (.IndexOutOfBounds base index)))
      ∧ (∀ k w, info base = .Scalar k w →
        validate_expression tf root (.AccessIndex base index) fn mod info os
          = .err (.InvalidBaseType base))
      ∧ (∀ k w sp, info base = .ValuePointer k w sp →
        validate_expression tf root (.AccessIndex base index) fn mod info os
          = .err (.InvalidBaseType base))
      ∧ (∀ d a cls, info base = .Image d a cls →
        validate_expression tf root (.AccessIndex base index) fn mod info os
          = .err (.InvalidBaseType base))
      ∧ (∀ cmp, info base = .Sampler cmp →
        validate_expression tf root (.AccessIndex base index) fn mod info os
          = .err (.InvalidBaseType base)))
  ∧ validate_expression (fun _ => ⟨false, false, false, false, false⟩) 1
        (.AccessIndex 0 3) ⟨none, [], none, [], []⟩
        ⟨⟨(0, 0, 0), 0⟩, [], [], [], [], []⟩
        (fun _ => .Vector .Tri .Float 4) []
      = .err (.IndexOutOfBounds 0 3) := by
  constructor
  · intro tf fn mod os root info base index hlt
    have hres := resolve_of_lt info hlt
    refine ⟨?_, ?_, ?_, ?_, ?_, ?_, ?_, ?_, ?_, ?_⟩
    · intro s k w hb
      constructor
      · simp [validate_expression, hres, hb]
      · intro hge
        simp [validate_expression, hres, hb, hge]
    · intro c r w hb
      constructor
      · simp [validate_expression, hres, hb]
      · intro hge
        simp [validate_expression, hres, hb, hge]
    · intro b members hb
      constructor
      · simp [validate_expression, hres, hb]
      · intro hge
        simp [validate_expression, hres, hb, hge]
    · intro ab sh st c n hb hc hn
      constructor
      · simp [validate_expression, hres, hb, arenaIdx, hc, hn]
      · intro hge
        simp [validate_expression, hres, hb, arenaIdx, hc, hn, hge]
    · intro ab st hb
      constructor
      · simp [validate_expression, hres, hb]
      · intro hge
        simp [validate_expression, hres, hb, hge]
    · intro pb sp hb
      constructor
      · simp [validate_expression, hres, hb]
      · intro hge
        simp [validate_expression, hres, hb, hge]
    · intro k w hb
      simp [validate_expression, hres, hb]
    · intro k w sp hb
      simp [validate_expression, hres, hb]
    · intro d a cls hb
      simp [validate_expression, hres, hb]
    · intro cmp hb
      simp [validate_expression, hres, hb]
  · rfl

theorem C3_access_index_rule_witness :
    validate_expression (fun _ => ⟨false, false, false, false, false⟩) 1
        (.AccessIndex 0 1) ⟨none, [], none, [], []⟩
        ⟨⟨(0, 0, 0), 0⟩, [], [], [], [], []⟩
        (fun _ => .Vector .Bi .Float 4) []
      = .ok ShaderStages.allStages :=
  (((C3_access_index_rule.1 (fun _ => ⟨false, false, false, false, false⟩)
      ⟨none, [], none, [], []⟩ ⟨⟨(0, 0, 0), 0⟩, [], [], [], [], []⟩ []
      1 (fun _ => .Vector .Bi .Float 4) 0 1 (by decide)).1
      .Bi .Float 4 rfl).1).mpr (by decide)

end Javelin

namespace Javelin

@[simp] theorem RunResult.bind_eq_ok {ε α β : Type} {m : RunResult ε α}
    {f : α → RunResult ε β} {b : β} :
    (m >>= f) = .ok b ↔ ∃ a, m = .ok a ∧ f a = .ok b := by
  cases m <;> simp

theorem compose_vector_components_ok {root : Handle}
    {info : Handle → TypeInner} {kind : ScalarKind} {width : Nat} :
    ∀ (comps : List Handle) (idx : Nat),
      (∀ c ∈ comps, c < root) →
      (∀ c ∈ comps, vector_component_matches kind width info c) →
      compose_vector_components (ExpressionTypeResolver.resolve root info)
          kind width idx comps
        = .ok (vector_component_count info comps)
  | [], _, _, _ => rfl
  | c :: rest, idx, hlt, hm => by
    have hc := hlt c (List.mem_cons_self c rest)
    have hres := resolve_of_lt info hc
    have ih := compose_vector_components_ok rest (idx + 1)
      (fun x hx => hlt x (List.mem_cons_of_mem c hx))
      (fun x hx => hm x (List.mem_cons_of_mem c hx))
    rcases hm c (List.mem_cons_self c rest) with hs | ⟨s, hv⟩
    · simp [compose_vector_components, hres, hs, ih, vector_component_count]
    · simp [compose_vector_components, hres, hv, ih, vector_component_count]

theorem compose_vector_components_ok_inv {root : Handle}
    {info : Handle → TypeInner} {kind : ScalarKind} {width : Nat} :
    ∀ (comps : List Handle) (idx : Nat) (n : Nat),
      compose_vector_components (ExpressionTypeResolver.resolve root info)
          kind width idx comps = .ok n →
      (∀ c ∈ comps, c < root ∧ vector_component_matches kind width info c)
        ∧ n = vector_component_count info comps
  | [], _, n, h => by
    refine ⟨by simp, ?_⟩
    simp only [compose_vector_components] at h
    cases h
    simp [vector_component_count]
  | c :: rest, idx, n, h => by
    simp only [compose_vector_components, RunResult.bind_eq_ok] at h
    obtain ⟨t, hres, n1, hmatch, m, hrest, hsum⟩ := h
    have hc : c < root := by
      by_contra hge
      rw [resolve_of_ge info (Nat.le_of_not_lt hge)] at hres
      cases hres
    rw [resolve_of_lt info hc] at hres
    have ht : t = info c := by cases hres; rfl
    subst ht
    obtain ⟨hall, hcount⟩ := compose_vector_components_ok_inv rest (idx + 1) m hrest
    have hsum' : n = n1 + m := by cases hsum; rfl
    rcases hinfo : info c with ⟨k, w⟩ | ⟨s, k, w⟩ | ⟨a, b, w⟩ | ⟨a, b⟩
      | ⟨a, b, w⟩ | ⟨a, b, w⟩ | ⟨a, b⟩ | ⟨a, b, w⟩ | ⟨a⟩ <;>
      simp only [hinfo] at hmatch
    · by_cases hkw : k = kind ∧ w = width
      · rw [if_pos hkw] at hmatch
        have hn1 : n1 = 1 := by cases hmatch; rfl
        refine ⟨?_, ?_⟩
        · intro x hx
          rcases List.mem_cons.mp hx with hx | hx
          · subst hx
            exact ⟨hc, Or.inl (by rw [hinfo, hkw.1, hkw.2])⟩
          · exact hall x hx
        · simp [vector_component_count, hinfo, hsum', hn1, hcount]
      · rw [if_neg hkw] at hmatch
        cases hmatch
    · by_cases hkw : k = kind ∧ w = width
      · rw [if_pos hkw] at hmatch
        have hn1 : n1 = s.toNat := by cases hmatch; rfl
        refine ⟨?_, ?_⟩
        · intro x hx
          rcases List.mem_cons.mp hx with hx | hx
          · subst hx
            exact ⟨hc, Or.inr ⟨s, by rw [hinfo, hkw.1, hkw.2]⟩⟩
          · exact hall x hx
        · simp [vector_component_count, hinfo, hsum', hn1, hcount]
      · rw [if_neg hkw] at hmatch
        cases hmatch
    · cases hmatch
    · cases hmatch
    · cases hmatch
    · cases hmatch
    · cases hmatch
    · cases hmatch
    · cases hmatch

end Javelin

namespace Javelin

/-- C7: composing a `Vector«size,kind,width»`: every component must resolve
to a scalar or vector of the same kind and width, the components' element
counts (1 per scalar, the vector's size per vector) must sum to exactly
`size` — otherwise `InvalidComposeCount«expected := size, given := total»` —
and composing `vec4<f32>` from three `f32` scalars fails with
`InvalidComposeCount«expected := 4, given := 3»`. -/
theorem C7_compose_vector_rule :
    validate_expression (fun _ => ⟨false, false, false, false, false⟩) 3
        (.Compose 0 [0, 1, 2]) ⟨none, [], none, [], []⟩
        ⟨⟨(0, 0, 0), 0⟩, [⟨none, .Vector .Quad .Float 4⟩], [], [], [], []⟩
        (fun _ => .Scalar .Float 4) []
      = .err (.InvalidComposeCount 3 4)
  ∧ (∀ (tf : Handle → TypeFlags) (fn : Function) (mod : Module)
      (os : List ShaderStages) (root : Handle) (info : Handle → TypeInner)
      (ty : Handle) (comps : List Handle) (nm : Option String)
      (size : VectorSize) (kind : ScalarKind) (width : Nat),
      mod.types[ty]? = some ⟨nm, .Vector size kind width⟩ →
      (∀ c ∈ comps, c < root) →
      (∀ c ∈ comps, vector_component_matches kind width info c) →
      (validate_expression tf root (.Compose ty comps) fn mod info os
          = .ok ShaderStages.allStages
        ↔ vector_component_count info comps = size.toNat)
      ∧ (vector_component_count info comps ≠ size.toNat →
        validate_expression tf root (.Compose ty comps) fn mod info os
          = .err (.InvalidComposeCount (vector_component_count info comps)
              size.toNat)))
  ∧ (∀ (tf : Handle → TypeFlags) (fn : Function) (mod : Module)
      (os : List ShaderStages) (root : Handle) (info : Handle → TypeInner)
      (ty : Handle) (comps : List Handle) (nm : Option String)
      (size : VectorSize) (kind : ScalarKind) (width : Nat)
      (x : ShaderStages),
      mod.types[ty]? = some ⟨nm, .Vector size kind width⟩ →
      validate_expression tf root (.Compose ty comps) fn mod info os = .ok x →
      (∀ c ∈ comps, c < root ∧ vector_component_matches kind width info c)
        ∧ vector_component_count info comps = size.toNat) := by
  refine ⟨rfl, ?_, ?_⟩
  · intro tf fn mod os root info ty comps nm size kind width hty hlt hm
    have hcomp := compose_vector_components_ok comps 0 hlt hm
    constructor
    · simp only [validate_expression, arenaTryGet, List.get?_eq_getElem?, hty,
        hcomp, RunResult.bind_ok]
      split_ifs with h <;> simp <;> omega
    · intro hne
      simp only [validate_expression, arenaTryGet, List.get?_eq_getElem?, hty,
        hcomp, RunResult.bind_ok]
      rw [if_pos (Ne.symm hne)]
  · intro tf fn mod os root info ty comps nm size kind width x hty hok
    simp only [validate_expression, arenaTryGet, List.get?_eq_getElem?, hty,
      RunResult.bind_eq_ok] at hok
    obtain ⟨total, hcomp, hif⟩ := hok
    obtain ⟨hall, hcount⟩ :=
      compose_vector_components_ok_inv comps 0 total hcomp
    refine ⟨hall, ?_⟩
    by_cases h : size.toNat ≠ total
    · rw [if_pos h] at hif
      cases hif
    · rw [if_neg h] at hif
      omega

end Javelin

namespace Javelin

/-- C4 counterexample: a `Composite` constant typed `vec2<f32>` whose two
components are `Bool` scalar constants is accepted — the declared type's
element types are never checked against the components (the non-array arm of
`validate_constant` is an empty `//TODO`), contradicting the claim's
"every composite component must be of the declared type's element/member
types". -/
theorem C4_composite_type_counterexample :
    validate_constant (fun _ _ => true) 2
        [⟨none, none, .Scalar 1 (.Bool true)⟩,
         ⟨none, none, .Scalar 1 (.Bool true)⟩,
         ⟨none, none, .Composite 0 [0, 1]⟩]
        [⟨none, .Vector .Bi .Float 4⟩]
      = .ok () := rfl

/-- C4 (amended): `validate_constant` accepts a `Scalar` constant exactly
when its width passes the width check for the value's scalar kind; for a
`Composite` constant it fails with `InvalidType` when the declared type is a
dynamic-size array, with `UnresolvedSize(s)` when the declared type is a
static array whose size-constant handle `s` is not strictly earlier than the
constant, and with `UnresolvedComponent(c)` at the first component handle
`c` not strictly earlier than the constant; when the declared type is no
dynamic array, any static-array size handle is strictly earlier and every
component handle is strictly earlier, the composite is accepted — the
components' own types are never compared against the declared type's
element/member types. -/
theorem C4_validate_constant_rule :
    ∀ (cw : ScalarKind → Nat → Bool) (handle : Handle)
      (constants : List Constant) (types : List Ty) (c : Constant),
      constants[handle]? = some c →
      (∀ width value, c.inner = .Scalar width value →
        (validate_constant cw handle constants types = .ok ()
          ↔ cw value.scalar_kind width = true)
        ∧ (cw value.scalar_kind width = false →
          validate_constant cw handle constants types = .err .InvalidType))
      ∧ (∀ ty comps t, c.inner = .Composite ty comps → types[ty]? = some t →
        (∀ ab st, t.inner = .Array ab .Dynamic st →
          validate_constant cw handle constants types = .err .InvalidType)
        ∧ (∀ ab sh st, t.inner = .Array ab (.Constant sh) st → handle ≤ sh →
          validate_constant cw handle constants types
            = .err (.UnresolvedSize sh))
        ∧ (∀ comp, (∀ ab st, t.inner ≠ .Array ab .Dynamic st) →
            (∀ ab sh st, t.inner = .Array ab (.Constant sh) st → sh < handle) →
            comps.find? (fun x => decide (handle ≤ x)) = some comp →
            validate_constant cw handle constants types
              = .err (.UnresolvedComponent comp))
        ∧ ((∀ ab st, t.inner ≠ .Array ab .Dynamic st) →
            (∀ ab sh st, t.inner = .Array ab (.Constant sh) st → sh < handle) →
            (∀ x ∈ comps, x < handle) →
            validate_constant cw handle constants types = .ok ())) := by
  intro cw handle constants types c hc
  constructor
  · intro width value hinner
    constructor
    · constructor
      · intro hok
        by_contra hbad
        simp only [Bool.not_eq_true] at hbad
        simp [validate_constant, arenaIdx, List.get?_eq_getElem?, hc, hinner,
          hbad] at hok
      · intro hw
        simp [validate_constant, arenaIdx, List.get?_eq_getElem?, hc, hinner,
          hw]
    · intro hw
      simp [validate_constant, arenaIdx, List.get?_eq_getElem?, hc, hinner,
        hw]
  · intro ty comps t hinner ht
    refine ⟨?_, ?_, ?_, ?_⟩
    · intro ab st ht2
      simp [validate_constant, arenaIdx, List.get?_eq_getElem?, hc, hinner,
        ht, ht2]
    · intro ab sh st ht2 hle
      simp [validate_constant, arenaIdx, List.get?_eq_getElem?, hc, hinner,
        ht, ht2, hle]
    · intro comp hnd hst hfind
      rcases ht2 : t.inner with ⟨k, w⟩ | ⟨s, k, w⟩ | ⟨a, b, w⟩ | ⟨a, b⟩
        | ⟨a, b, w⟩ | ⟨a, sz, w⟩ | ⟨a, b⟩ | ⟨a, b, w⟩ | ⟨a⟩ <;>
        try (simp [validate_constant, arenaIdx, List.get?_eq_getElem?, hc,
          hinner, ht, ht2, hfind])
      rcases sz with sh | _
      · have := hst a sh w ht2
        simp [validate_constant, arenaIdx, List.get?_eq_getElem?, hc, hinner,
          ht, ht2, Nat.not_le.mpr this, hfind]
      · exact absurd ht2 (hnd a w)
    · intro hnd hst hall
      have hfind : comps.find? (fun x => decide (handle ≤ x)) = none := by
        rw [List.find?_eq_none]
        intro x hx
        simpa using Nat.not_le.mpr (hall x hx)
      rcases ht2 : t.inner with ⟨k, w⟩ | ⟨s, k, w⟩ | ⟨a, b, w⟩ | ⟨a, b⟩
        | ⟨a, b, w⟩ | ⟨a, sz, w⟩ | ⟨a, b⟩ | ⟨a, b, w⟩ | ⟨a⟩ <;>
        try (simp [validate_constant, arenaIdx, List.get?_eq_getElem?, hc,
          hinner, ht, ht2, hfind])
      rcases sz with sh | _
      · have := hst a sh w ht2
        simp [validate_constant, arenaIdx, List.get?_eq_getElem?, hc, hinner,
          ht, ht2, Nat.not_le.mpr this, hfind]
      · exact absurd ht2 (hnd a w)

/-- C4 witness: the amended rule at a concrete well-formed composite — an
array of two `f32` scalars whose size constant and components are strictly
earlier. -/
theorem C4_validate_constant_rule_witness :
    validate_constant (fun _ _ => true) 3
        [⟨none, none, .Scalar 4 (.Uint 2)⟩,
         ⟨none, none, .Scalar 4 .Float⟩,
         ⟨none, none, .Scalar 4 .Float⟩,
         ⟨none, none, .Composite 0 [1, 2]⟩]
        [⟨none, .Array 1 (.Constant 0) (some 4)⟩,
         ⟨none, .Scalar .Float 4⟩]
      = .ok () := by
  refine (((C4_validate_constant_rule (fun _ _ => true) 3
      [⟨none, none, .Scalar 4 (.Uint 2)⟩,
       ⟨none, none, .Scalar 4 .Float⟩,
       ⟨none, none, .Scalar 4 .Float⟩,
       ⟨none, none, .Composite 0 [1, 2]⟩]
      [⟨none, .Array 1 (.Constant 0) (some 4)⟩,
       ⟨none, .Scalar .Float 4⟩]
      ⟨none, none, .Composite 0 [1, 2]⟩ rfl).2
      0 [1, 2] ⟨none, .Array 1 (.Constant 0) (some 4)⟩ rfl rfl).2.2.2
      (by intro ab st h; cases h)
      (by intro ab sh st h; cases h; decide) (by decide))

end Javelin

namespace Javelin

@[simp] theorem RunResult.bind_eq_err {ε α β : Type} {m : RunResult ε α}
    {f : α → RunResult ε β} {e : ε} :
    (m >>= f) = .err e ↔ m = .err e ∨ ∃ a, m = .ok a ∧ f a = .err e := by
  cases m <;> simp

theorem exceptIsOk_iff {ε α : Type} {x : Except ε α} :
    exceptIsOk x = true ↔ ∃ r, x = .ok r := by
  cases x <;> simp [exceptIsOk]

theorem validate_constants_loop_first_err {σ γ δ ε : Type}
    (cw : ScalarKind → Nat → Bool) (module : Module) :
    ∀ (rest : List Constant) (start i : Nat) (c : Constant)
      (e : ConstantError),
      rest[i]? = some c →
      validate_constant cw (start + i) module.constants module.types = .err e →
      (∀ j, j < i →
        validate_constant cw (start + j) module.constants module.types
          = .ok ()) →
      validate_constants_loop (σ := σ) (γ := γ) (δ := δ) (ε := ε)
          cw module start rest
        = .err (.Constant (start + i) (c.name.getD "") e)
  | [], start, i, c, e, hc, _, _ => by simp at hc
  | x :: xs, start, i, c, e, hc, herr, hok => by
    cases i with
    | zero =>
      have hx : c = x := by simpa using hc.symm
      subst hx
      have herr0 : validate_constant cw start module.constants module.types
          = .err e := by simpa using herr
      simp [validate_constants_loop, herr0]
    | succ i =>
      have h0 : validate_constant cw start module.constants module.types
          = .ok () := by
        simpa using hok 0 (Nat.succ_pos i)
      have ih := validate_constants_loop_first_err (σ := σ) (γ := γ)
        (δ := δ) (ε := ε) cw module xs (start + 1) i c e
        (by simpa using hc)
        (by simpa [Nat.add_assoc, Nat.add_comm 1 i] using herr)
        (fun j hj => by
          simpa [Nat.add_assoc, Nat.add_comm 1 j] using hok (j + 1)
            (Nat.succ_lt_succ hj))
      have hshift : start + 1 + i = start + (i + 1) := by omega
      rw [hshift] at ih
      simpa [validate_constants_loop, h0] using ih

end Javelin

namespace Javelin

theorem validate_constants_loop_all_ok {σ γ δ ε : Type}
    (cw : ScalarKind → Nat → Bool) (module : Module) :
    ∀ (rest : List Constant) (start : Nat),
      (∀ j, j < rest.length →
        validate_constant cw (start + j) module.constants module.types
          = .ok ()) →
      validate_constants_loop (σ := σ) (γ := γ) (δ := δ) (ε := ε)
          cw module start rest = .ok ()
  | [], _, _ => rfl
  | x :: xs, start, hok => by
    have h0 : validate_constant cw start module.constants module.types
        = .ok () := by
      simpa using hok 0 (Nat.succ_pos _)
    have ih := validate_constants_loop_all_ok (σ := σ) (γ := γ)
      (δ := δ) (ε := ε) cw module xs (start + 1)
      (fun j hj => by
        simpa [Nat.add_assoc, Nat.add_comm 1 j] using hok (j + 1)
          (Nat.succ_lt_succ hj))
    simpa [validate_constants_loop, h0] using ih

theorem validate_types_loop_first_err {σ γ δ ε τ : Type}
    (ct : Handle → Ty → Except σ τ) :
    ∀ (rest : List Ty) (start i : Nat) (t : Ty) (e : σ),
      rest[i]? = some t →
      ct (start + i) t = .error e →
      (∀ j tj, j < i → rest[j]? = some tj →
        exceptIsOk (ct (start + j) tj) = true) →
      validate_types_loop (γ := γ) (δ := δ) (ε := ε) ct start rest
        = .err (.TypeInvalid (start + i) (t.name.getD "") e)
  | [], start, i, t, e, ht, _, _ => by simp at ht
  | x :: xs, start, i, t, e, ht, herr, hok => by
    cases i with
    | zero =>
      have hx : t = x := by simpa using ht.symm
      subst hx
      have herr0 : ct start t = .error e := by simpa using herr
      simp [validate_types_loop, herr0]
    | succ i =>
      obtain ⟨r, hr⟩ := exceptIsOk_iff.mp
        (by simpa using hok 0 x (Nat.succ_pos i) (by simp))
      have ih := validate_types_loop_first_err (γ := γ) (δ := δ) (ε := ε)
        ct xs (start + 1) i t e
        (by simpa using ht)
        (by simpa [Nat.add_assoc, Nat.add_comm 1 i] using herr)
        (fun j tj hj htj => by
          simpa [Nat.add_assoc, Nat.add_comm 1 j] using
            hok (j + 1) tj (Nat.succ_lt_succ hj) (by simpa using htj))
      have hshift : start + 1 + i = start + (i + 1) := by omega
      rw [hshift] at ih
      simpa [validate_types_loop, hr] using ih

theorem validate_types_loop_all_ok {σ γ δ ε τ : Type}
    (ct : Handle → Ty → Except σ τ) :
    ∀ (rest : List Ty) (start : Nat),
      (∀ j tj, rest[j]? = some tj → exceptIsOk (ct (start + j) tj) = true) →
      validate_types_loop (γ := γ) (δ := δ) (ε := ε) ct start rest
        = .ok ()
  | [], _, _ => rfl
  | x :: xs, start, hok => by
    obtain ⟨r, hr⟩ := exceptIsOk_iff.mp
      (by simpa using hok 0 x (by simp))
    have ih := validate_types_loop_all_ok (γ := γ) (δ := δ) (ε := ε)
      ct xs (start + 1)
      (fun j tj htj => by
        simpa [Nat.add_assoc, Nat.add_comm 1 j] using
          hok (j + 1) tj (by simpa using htj))
    simpa [validate_types_loop, hr] using ih

theorem validate_globals_loop_first_err {σ γ δ ε : Type}
    (cg : GlobalVariable → Except γ Unit) :
    ∀ (rest : List GlobalVariable) (start i : Nat) (v : GlobalVariable)
      (e : γ),
      rest[i]? = some v →
      cg v = .error e →
      (∀ j vj, j < i → rest[j]? = some vj → exceptIsOk (cg vj) = true) →
      validate_globals_loop (σ := σ) (δ := δ) (ε := ε) cg start rest
        = .err (.GlobalVariable (start + i) (v.name.getD "") e)
  | [], start, i, v, e, hv, _, _ => by simp at hv
  | x :: xs, start, i, v, e, hv, herr, hok => by
    cases i with
    | zero =>
      have hx : v = x := by simpa using hv.symm
      subst hx
      simp [validate_globals_loop, herr]
    | succ i =>
      obtain ⟨r, hr⟩ := exceptIsOk_iff.mp
        (by simpa using hok 0 x (Nat.succ_pos i) (by simp))
      obtain ⟨⟩ := r
      have ih := validate_globals_loop_first_err (σ := σ) (δ := δ)
        (ε := ε) cg xs (start + 1) i v e
        (by simpa using hv) herr
        (fun j vj hj hvj => hok (j + 1) vj (Nat.succ_lt_succ hj)
          (by simpa using hvj))
      have hshift : start + 1 + i = start + (i + 1) := by omega
      rw [hshift] at ih
      simpa [validate_globals_loop, hr] using ih

theorem validate_globals_loop_all_ok {σ γ δ ε : Type}
    (cg : GlobalVariable → Except γ Unit) :
    ∀ (rest : List GlobalVariable) (start : Nat),
      (∀ (j : Nat) (vj : GlobalVariable), rest[j]? = some vj →
        exceptIsOk (cg vj) = true) →
      validate_globals_loop (σ := σ) (δ := δ) (ε := ε) cg start rest
        = .ok ()
  | [], _, _ => rfl
  | x :: xs, start, hok => by
    obtain ⟨r, hr⟩ := exceptIsOk_iff.mp (by simpa using hok 0 x (by simp))
    obtain ⟨⟩ := r
    have ih := validate_globals_loop_all_ok (σ := σ) (δ := δ) (ε := ε)
      cg xs (start + 1)
      (fun j vj hvj => hok (j + 1) vj (by simpa using hvj))
    simpa [validate_globals_loop, hr] using ih

theorem validate_functions_loop_of_acc {σ γ δ ε φ : Type}
    (cf : Function → ModuleInfo φ → Except δ φ) :
    ∀ (fns : List Function) (start : Nat) (mi mi' : ModuleInfo φ),
      function_infos_acc cf mi fns = some mi' →
      validate_functions_loop (σ := σ) (γ := γ) (ε := ε) cf start mi fns
        = .ok mi'
  | [], _, mi, mi', h => by
    simp only [function_infos_acc] at h
    cases h
    rfl
  | fn :: rest, start, mi, mi', h => by
    simp only [function_infos_acc] at h
    rcases hcf : cf fn mi with e | info
    · rw [hcf] at h
      cases h
    · rw [hcf] at h
      have ih := validate_functions_loop_of_acc (σ := σ) (γ := γ)
        (ε := ε) cf rest (start + 1) ⟨mi.functions ++ [info], mi.entry_points⟩
        mi' h
      simpa [validate_functions_loop, hcf] using ih

theorem validate_functions_loop_first_err {σ γ δ ε φ : Type}
    (cf : Function → ModuleInfo φ → Except δ φ) :
    ∀ (fns : List Function) (start : Nat) (mi : ModuleInfo φ) (i : Nat)
      (fn : Function) (e : δ) (mi_i : ModuleInfo φ),
      fns[i]? = some fn →
      function_infos_acc cf mi (fns.take i) = some mi_i →
      cf fn mi_i = .error e →
      validate_functions_loop (σ := σ) (γ := γ) (ε := ε) cf start mi fns
        = .err (.Function (start + i) (fn.name.getD "") e)
  | [], start, mi, i, fn, e, mi_i, hfn, _, _ => by simp at hfn
  | x :: xs, start, mi, i, fn, e, mi_i, hfn, hacc, herr => by
    cases i with
    | zero =>
      have hx : fn = x := by simpa using hfn.symm
      subst hx
      simp only [List.take_zero, function_infos_acc] at hacc
      cases hacc
      simp [validate_functions_loop, herr]
    | succ i =>
      simp only [List.take_succ_cons, function_infos_acc] at hacc
      rcases hcf : cf x mi with e0 | info
      · rw [hcf] at hacc
        cases hacc
      · rw [hcf] at hacc
        have ih := validate_functions_loop_first_err (σ := σ) (γ := γ)
          (ε := ε) cf xs (start + 1) ⟨mi.functions ++ [info], mi.entry_points⟩
          i fn e mi_i (by simpa using hfn) hacc herr
        have hshift : start + 1 + i = start + (i + 1) := by omega
        rw [hshift] at ih
        simpa [validate_functions_loop, hcf] using ih

theorem validate_entry_points_loop_of_acc {σ γ δ ε φ : Type}
    (cep : EntryPoint → ModuleInfo φ → Except (EntryPointError ε) φ) :
    ∀ (eps : List EntryPoint) (seen : List (ShaderStage × String))
      (mi : ModuleInfo φ) (s' : List (ShaderStage × String))
      (mi' : ModuleInfo φ),
      ep_acc cep seen mi eps = some (s', mi') →
      validate_entry_points_loop (σ := σ) (γ := γ) (δ := δ)
          cep seen mi eps = .ok mi'
  | [], seen, mi, s', mi', h => by
    simp only [ep_acc] at h
    cases h
    rfl
  | ep :: rest, seen, mi, s', mi', h => by
    simp only [ep_acc] at h
    by_cases hmem : (ep.stage, ep.name) ∈ seen
    · rw [if_pos hmem] at h
      cases h
    · rw [if_neg hmem] at h
      rcases hcep : cep ep mi with e | info
      · rw [hcep] at h
        cases h
      · rw [hcep] at h
        have ih := validate_entry_points_loop_of_acc (σ := σ) (γ := γ)
          (δ := δ) cep rest ((ep.stage, ep.name) :: seen)
          ⟨mi.functions, mi.entry_points ++ [info]⟩ s' mi' h
        simpa [validate_entry_points_loop, hmem, hcep] using ih

theorem validate_entry_points_loop_first_fail {σ γ δ ε φ : Type}
    (cep : EntryPoint → ModuleInfo φ → Except (EntryPointError ε) φ) :
    ∀ (eps : List EntryPoint) (seen : List (ShaderStage × String))
      (mi : ModuleInfo φ) (i : Nat) (ep : EntryPoint)
      (s_i : List (ShaderStage × String)) (mi_i : ModuleInfo φ),
      eps[i]? = some ep →
      ep_acc cep seen mi (eps.take i) = some (s_i, mi_i) →
      ((ep.stage, ep.name) ∈ s_i →
        validate_entry_points_loop (σ := σ) (γ := γ) (δ := δ)
            cep seen mi eps
          = .err (.EntryPoint ep.stage ep.name .Conflict))
      ∧ (∀ e, (ep.stage, ep.name) ∉ s_i → cep ep mi_i = .error e →
        validate_entry_points_loop (σ := σ) (γ := γ) (δ := δ)
            cep seen mi eps
          = .err (.EntryPoint ep.stage ep.name e))
  | [], seen, mi, i, ep, s_i, mi_i, hep, _ => by simp at hep
  | x :: xs, seen, mi, i, ep, s_i, mi_i, hep, hacc => by
    cases i with
    | zero =>
      have hx : ep = x := by simpa using hep.symm
      subst hx
      simp only [List.take_zero, ep_acc] at hacc
      cases hacc
      constructor
      · intro hmem
        simp [validate_entry_points_loop, hmem]
      · intro e hmem herr
        simp [validate_entry_points_loop, hmem, herr]
    | succ i =>
      simp only [List.take_succ_cons, ep_acc] at hacc
      by_cases hmem : (x.stage, x.name) ∈ seen
      · rw [if_pos hmem] at hacc
        cases hacc
      · rw [if_neg hmem] at hacc
        rcases hcep : cep x mi with e0 | info
        · rw [hcep] at hacc
          cases hacc
        · rw [hcep] at hacc
          have ih := validate_entry_points_loop_first_fail (σ := σ)
            (γ := γ) (δ := δ) cep xs ((x.stage, x.name) :: seen)
            ⟨mi.functions, mi.entry_points ++ [info]⟩ i ep s_i mi_i
            (by simpa using hep) hacc
          constructor
          · intro hm
            have := ih.1 hm
            simpa [validate_entry_points_loop, hmem, hcep] using this
          · intro e hm herr
            have := ih.2 e hm herr
            simpa [validate_entry_points_loop, hmem, hcep] using this

end Javelin

namespace Javelin

theorem validate_constants_loop_err_shape {σ γ δ ε : Type}
    (cw : ScalarKind → Nat → Bool) (module : Module) :
    ∀ (rest : List Constant) (start : Nat)
      (ve : ValidationError σ γ δ ε),
      validate_constants_loop cw module start rest = .err ve →
      ∃ h n e, ve = .Constant h n e
  | [], _, _, h => by simp only [validate_constants_loop] at h; cases h
  | x :: xs, start, ve, h => by
    simp only [validate_constants_loop] at h
    rcases hv : validate_constant cw start module.constants module.types
      with u | e | m <;> rw [hv] at h
    · exact validate_constants_loop_err_shape cw module xs (start + 1) ve h
    · cases h
      exact ⟨start, x.name.getD "", e, rfl⟩
    · cases h

theorem validate_types_loop_err_shape {σ γ δ ε τ : Type}
    (ct : Handle → Ty → Except σ τ) :
    ∀ (rest : List Ty) (start : Nat) (ve : ValidationError σ γ δ ε),
      validate_types_loop ct start rest = .err ve →
      ∃ h n e, ve = .TypeInvalid h n e
  | [], _, _, h => by simp only [validate_types_loop] at h; cases h
  | x :: xs, start, ve, h => by
    simp only [validate_types_loop] at h
    rcases hv : ct start x with e | r <;> rw [hv] at h
    · cases h
      exact ⟨start, x.name.getD "", e, rfl⟩
    · exact validate_types_loop_err_shape ct xs (start + 1) ve h

theorem validate_globals_loop_err_shape {σ γ δ ε : Type}
    (cg : GlobalVariable → Except γ Unit) :
    ∀ (rest : List GlobalVariable) (start : Nat)
      (ve : ValidationError σ γ δ ε),
      validate_globals_loop cg start rest = .err ve →
      ∃ h n e, ve = .GlobalVariable h n e
  | [], _, _, h => by simp only [validate_globals_loop] at h; cases h
  | x :: xs, start, ve, h => by
    simp only [validate_globals_loop] at h
    rcases hv : cg x with e | r <;> rw [hv] at h
    · cases h
      exact ⟨start, x.name.getD "", e, rfl⟩
    · exact validate_globals_loop_err_shape cg xs (start + 1) ve h

theorem validate_functions_loop_err_shape {σ γ δ ε φ : Type}
    (cf : Function → ModuleInfo φ → Except δ φ) :
    ∀ (fns : List Function) (start : Nat) (mi : ModuleInfo φ)
      (ve : ValidationError σ γ δ ε),
      validate_functions_loop cf start mi fns = .err ve →
      ∃ h n e, ve = .Function h n e
  | [], _, _, _, h => by simp only [validate_functions_loop] at h; cases h
  | x :: xs, start, mi, ve, h => by
    simp only [validate_functions_loop] at h
    rcases hv : cf x mi with e | info <;> rw [hv] at h
    · cases h
      exact ⟨start, x.name.getD "", e, rfl⟩
    · exact validate_functions_loop_err_shape cf xs (start + 1) _ ve h

theorem validate_entry_points_loop_conflict_inv {σ γ δ ε φ : Type}
    (cep : EntryPoint → ModuleInfo φ → Except (EntryPointError ε) φ)
    (hnc : ∀ ep mi, cep ep mi ≠ .error .Conflict) :
    ∀ (eps : List EntryPoint) (seen : List (ShaderStage × String))
      (mi : ModuleInfo φ) (s : ShaderStage) (n : String),
      validate_entry_points_loop (σ := σ) (γ := γ) (δ := δ)
          cep seen mi eps
        = .err (.EntryPoint s n .Conflict) →
      ∃ (j : Nat) (ep : EntryPoint), eps[j]? = some ep ∧ ep.stage = s
        ∧ ep.name = n
        ∧ ((ep.stage, ep.name) ∈ seen
          ∨ ∃ (k : Nat) (epk : EntryPoint), k < j ∧ eps[k]? = some epk
              ∧ (epk.stage, epk.name) = (ep.stage, ep.name))
  | [], seen, mi, s, n, h => by
    simp only [validate_entry_points_loop] at h
    cases h
  | ep0 :: rest, seen, mi, s, n, h => by
    simp only [validate_entry_points_loop] at h
    by_cases hmem : (ep0.stage, ep0.name) ∈ seen
    · rw [if_pos hmem] at h
      cases h
      exact ⟨0, ep0, by simp, rfl, rfl, Or.inl hmem⟩
    · rw [if_neg hmem] at h
      rcases hcep : cep ep0 mi with e | info <;> rw [hcep] at h
      · cases h
        exact absurd hcep (hnc ep0 mi)
      · obtain ⟨j, ep, hj, hs, hn, hrest⟩ :=
          validate_entry_points_loop_conflict_inv cep hnc rest
            ((ep0.stage, ep0.name) :: seen)
            ⟨mi.functions, mi.entry_points ++ [info]⟩ s n h
        refine ⟨j + 1, ep, ?_, hs, hn, ?_⟩
        · simpa using hj
        · rcases hrest with hmem' | ⟨k, epk, hk, hepk, hpair⟩
          · rcases List.mem_cons.mp hmem' with heq | hmem''
            · exact Or.inr ⟨0, ep0, Nat.succ_pos j, by simp, heq.symm⟩
            · exact Or.inl hmem''
          · exact Or.inr ⟨k + 1, epk, Nat.succ_lt_succ hk,
              by simpa using hepk, hpair⟩

end Javelin

namespace Javelin

/-- C1: `validate` checks constants (in arena order), then types, then
global variables, then functions, then entry points, and at the first
failure returns the matching `ValidationError` variant wrapping the
offending entity's handle (or stage) and name.  The conclusions hold for
every behavior of the not-yet-reached checkers (they are universally
quantified), which is the "without examining later entities" part; when
every check passes, the result is `Ok` with the collected `ModuleInfo`. -/
theorem C1_validate_order {σ γ δ ε τ φ : Type}
    (cw : ScalarKind → Nat → Bool) (ct : Handle → Ty → Except σ τ)
    (cg : GlobalVariable → Except γ Unit)
    (cf : Function → ModuleInfo φ → Except δ φ)
    (cep : EntryPoint → ModuleInfo φ → Except (EntryPointError ε) φ)
    (module : Module) :
    (∀ (i : Nat) (c : Constant) (e : ConstantError),
      module.constants[i]? = some c →
      validate_constant cw i module.constants module.types = .err e →
      (∀ j, j < i →
        validate_constant cw j module.constants module.types = .ok ()) →
      validate cw ct cg cf cep module
        = .err (.Constant i (c.name.getD "") e))
    ∧ (constants_pass cw module →
      ∀ (i : Nat) (t : Ty) (e : σ),
        module.types[i]? = some t → ct i t = .error e →
        (∀ (j : Nat) (tj : Ty), j < i → module.types[j]? = some tj →
          exceptIsOk (ct j tj) = true) →
        validate cw ct cg cf cep module
          = .err (.TypeInvalid i (t.name.getD "") e))
    ∧ (constants_pass cw module → types_pass ct module →
      ∀ (i : Nat) (v : GlobalVariable) (e : γ),
        module.global_variables[i]? = some v → cg v = .error e →
        (∀ (j : Nat) (vj : GlobalVariable), j < i →
          module.global_variables[j]? = some vj →
          exceptIsOk (cg vj) = true) →
        validate cw ct cg cf cep module
          = .err (.GlobalVariable i (v.name.getD "") e))
    ∧ (constants_pass cw module → types_pass ct module →
      globals_pass cg module →
      ∀ (i : Nat) (fn : Function) (e : δ) (mi_i : ModuleInfo φ),
        module.functions[i]? = some fn →
        function_infos_acc cf ⟨[], []⟩ (module.functions.take i)
          = some mi_i →
        cf fn mi_i = .error e →
        validate cw ct cg cf cep module
          = .err (.Function i (fn.name.getD "") e))
    ∧ (constants_pass cw module → types_pass ct module →
      globals_pass cg module →
      ∀ (mi : ModuleInfo φ),
        function_infos_acc cf ⟨[], []⟩ module.functions = some mi →
        (∀ (i : Nat) (ep : EntryPoint)
            (s_i : List (ShaderStage × String)) (mi_i : ModuleInfo φ),
          module.entry_points[i]? = some ep →
          ep_acc cep [] mi (module.entry_points.take i) = some (s_i, mi_i) →
          ((ep.stage, ep.name) ∈ s_i →
            validate cw ct cg cf cep module
              = .err (.EntryPoint ep.stage ep.name .Conflict))
          ∧ (∀ e, (ep.stage, ep.name) ∉ s_i → cep ep mi_i = .error e →
            validate cw ct cg cf cep module
              = .err (.EntryPoint ep.stage ep.name e)))
        ∧ (∀ (s' : List (ShaderStage × String)) (mi' : ModuleInfo φ),
          ep_acc cep [] mi module.entry_points = some (s', mi') →
          validate cw ct cg cf cep module = .ok mi')) := by
  have const_ok : constants_pass cw module →
      validate_constants_loop (σ := σ) (γ := γ) (δ := δ) (ε := ε)
        cw module 0 module.constants = .ok () := by
    intro hp
    refine validate_constants_loop_all_ok cw module module.constants 0 ?_
    intro j hj
    simpa using hp j module.constants[j] (List.getElem?_eq_getElem hj)
  have type_ok : types_pass ct module →
      validate_types_loop (γ := γ) (δ := δ) (ε := ε) ct 0 module.types
        = .ok () := by
    intro hp
    refine validate_types_loop_all_ok ct module.types 0 ?_
    intro j tj htj
    simpa using hp j tj htj
  have glob_ok : globals_pass cg module →
      validate_globals_loop (σ := σ) (δ := δ) (ε := ε) cg 0
        module.global_variables = .ok () := by
    intro hp
    refine validate_globals_loop_all_ok cg module.global_variables 0 ?_
    intro j vj hvj
    exact hp j vj hvj
  refine ⟨?_, ?_, ?_, ?_, ?_⟩
  · intro i c e hc herr hok
    have h1 := validate_constants_loop_first_err (σ := σ) (γ := γ)
      (δ := δ) (ε := ε) cw module module.constants 0 i c e
      (by simpa using hc) (by simpa using herr)
      (fun j hj => by simpa using hok j hj)
    have h1' : validate_constants_loop (σ := σ) (γ := γ) (δ := δ)
        (ε := ε) cw module 0 module.constants
        = .err (.Constant i (c.name.getD "") e) := by simpa using h1
    simp [validate, h1']
  · intro hcp i t e ht herr hok
    have h2 := validate_types_loop_first_err (γ := γ) (δ := δ) (ε := ε)
      ct module.types 0 i t e (by simpa using ht) (by simpa using herr)
      (fun j tj hj htj => by simpa using hok j tj hj (by simpa using htj))
    have h2' : validate_types_loop (γ := γ) (δ := δ) (ε := ε) ct 0
        module.types = .err (.TypeInvalid i (t.name.getD "") e) := by
      simpa using h2
    simp [validate, const_ok hcp, h2']
  · intro hcp htp i v e hv herr hok
    have h3 := validate_globals_loop_first_err (σ := σ) (δ := δ)
      (ε := ε) cg module.global_variables 0 i v e (by simpa using hv) herr
      (fun j vj hj hvj => hok j vj hj (by simpa using hvj))
    have h3' : validate_globals_loop (σ := σ) (δ := δ) (ε := ε) cg 0
        module.global_variables
        = .err (.GlobalVariable i (v.name.getD "") e) := by simpa using h3
    simp [validate, const_ok hcp, type_ok htp, h3']
  · intro hcp htp hgp i fn e mi_i hfn hacc herr
    have h4 := validate_functions_loop_first_err (σ := σ) (γ := γ)
      (ε := ε) cf module.functions 0 ⟨[], []⟩ i fn e mi_i
      (by simpa using hfn) hacc herr
    have h4' : validate_functions_loop (σ := σ) (γ := γ) (ε := ε) cf 0
        ⟨[], []⟩ module.functions
        = .err (.Function i (fn.name.getD "") e) := by simpa using h4
    simp [validate, const_ok hcp, type_ok htp, glob_ok hgp, h4']
  · intro hcp htp hgp mi hmi
    have hfn : validate_functions_loop (σ := σ) (γ := γ) (ε := ε) cf 0
        ⟨[], []⟩ module.functions = .ok mi :=
      validate_functions_loop_of_acc cf module.functions 0 ⟨[], []⟩ mi hmi
    constructor
    · intro i ep s_i mi_i hep hacc
      have h5 := validate_entry_points_loop_first_fail (σ := σ) (γ := γ)
        (δ := δ) cep module.entry_points [] mi i ep s_i mi_i hep hacc
      constructor
      · intro hmem
        have := h5.1 hmem
        simp [validate, const_ok hcp, type_ok htp, glob_ok hgp, hfn, this]
      · intro e hmem herr
        have := h5.2 e hmem herr
        simp [validate, const_ok hcp, type_ok htp, glob_ok hgp, hfn, this]
    · intro s' mi' hacc
      have h6 := validate_entry_points_loop_of_acc (σ := σ) (γ := γ)
        (δ := δ) cep module.entry_points [] mi s' mi' hacc
      simp [validate, const_ok hcp, type_ok htp, glob_ok hgp, hfn, h6]

end Javelin

namespace Javelin

/-- C5: with the earlier stages passing, `validate` rejects with
`ValidationError::EntryPoint` carrying `EntryPointError::Conflict` together
with the stage and name exactly when two entry points share a (stage, name)
pair: (1) when the pair of the entry point at position `i` was already seen,
the Conflict error is returned whatever the entry-point checker would say at
or after position `i` — the conflict is detected before the second entry
point's body is validated; (2) conversely a Conflict error implies two entry
points sharing the (stage, name) pair it carries, given that the entry-point
checker itself never returns Conflict (in the source, `Conflict` is
constructed only by the `validate` loop); and (3) two `(Vertex, "main")`
entry points produce exactly this error. -/
theorem C5_entry_point_conflict :
    (∀ (σ γ δ ε τ φ : Type) (cw : ScalarKind → Nat → Bool)
      (ct : Handle → Ty → Except σ τ) (cg : GlobalVariable → Except γ Unit)
      (cf : Function → ModuleInfo φ → Except δ φ)
      (cep : EntryPoint → ModuleInfo φ → Except (EntryPointError ε) φ)
      (module : Module),
      constants_pass cw module → types_pass ct module →
      globals_pass cg module →
      ∀ (mi : ModuleInfo φ),
        function_infos_acc cf ⟨[], []⟩ module.functions = some mi →
        ∀ (i : Nat) (ep : EntryPoint) (s_i : List (ShaderStage × String))
          (mi_i : ModuleInfo φ),
          module.entry_points[i]? = some ep →
          ep_acc cep [] mi (module.entry_points.take i) = some (s_i, mi_i) →
          (ep.stage, ep.name) ∈ s_i →
          validate cw ct cg cf cep module
            = .err (.EntryPoint ep.stage ep.name .Conflict))
  ∧ (∀ (σ γ δ ε τ φ : Type) (cw : ScalarKind → Nat → Bool)
      (ct : Handle → Ty → Except σ τ) (cg : GlobalVariable → Except γ Unit)
      (cf : Function → ModuleInfo φ → Except δ φ)
      (cep : EntryPoint → ModuleInfo φ → Except (EntryPointError ε) φ)
      (module : Module) (s : ShaderStage) (n : String),
      (∀ ep mi, cep ep mi ≠ .error .Conflict) →
      validate cw ct cg cf cep module = .err (.EntryPoint s n .Conflict) →
      ∃ (i j : Nat) (epi epj : EntryPoint), i < j
        ∧ module.entry_points[i]? = some epi
        ∧ module.entry_points[j]? = some epj
        ∧ epi.stage = s ∧ epi.name = n ∧ epj.stage = s ∧ epj.name = n)
  ∧ validate (σ := Unit) (γ := Unit) (δ := Unit) (ε := Unit) (τ := Unit)
      (φ := Unit) (fun _ _ => true) (fun _ _ => .ok ()) (fun _ => .ok ())
      (fun _ _ => .ok ()) (fun _ _ => .ok ())
      ⟨⟨(0, 0, 0), 0⟩, [], [], [], [],
        [⟨"main", .Vertex, none, (0, 0, 0), ⟨none, [], none, [], []⟩⟩,
         ⟨"main", .Vertex, none, (0, 0, 0), ⟨none, [], none, [], []⟩⟩]⟩
      = .err (.EntryPoint .Vertex "main" .Conflict) := by
  refine ⟨?_, ?_, by rfl⟩
  · intro σ γ δ ε τ φ cw ct cg cf cep module hcp htp hgp mi hmi i ep s_i
      mi_i hep hacc hmem
    have const_ok : validate_constants_loop (σ := σ) (γ := γ) (δ := δ)
        (ε := ε) cw module 0 module.constants = .ok () := by
      refine validate_constants_loop_all_ok cw module module.constants 0 ?_
      intro j hj
      simpa using hcp j module.constants[j] (List.getElem?_eq_getElem hj)
    have type_ok : validate_types_loop (γ := γ) (δ := δ) (ε := ε) ct 0
        module.types = .ok () := by
      refine validate_types_loop_all_ok ct module.types 0 ?_
      intro j tj htj
      simpa using htp j tj htj
    have glob_ok : validate_globals_loop (σ := σ) (δ := δ) (ε := ε) cg 0
        module.global_variables = .ok () := by
      refine validate_globals_loop_all_ok cg module.global_variables 0 ?_
      intro j vj hvj
      exact hgp j vj hvj
    have hfn : validate_functions_loop (σ := σ) (γ := γ) (ε := ε) cf 0
        ⟨[], []⟩ module.functions = .ok mi :=
      validate_functions_loop_of_acc cf module.functions 0 ⟨[], []⟩ mi hmi
    have h5 := (validate_entry_points_loop_first_fail (σ := σ) (γ := γ)
      (δ := δ) cep module.entry_points [] mi i ep s_i mi_i hep hacc).1 hmem
    simp [validate, const_ok, type_ok, glob_ok, hfn, h5]
  · intro σ γ δ ε τ φ cw ct cg cf cep module s n hnc hv
    simp only [validate, RunResult.bind_eq_err] at hv
    rcases hv with h1 | ⟨u1, hc1, h2 | ⟨u2, ht2, h3 | ⟨u3, hg3, h4 |
      ⟨mi, hf4, h5⟩⟩⟩⟩
    · obtain ⟨h', n', e', he⟩ :=
        validate_constants_loop_err_shape cw module module.constants 0 _ h1
      cases he
    · obtain ⟨h', n', e', he⟩ :=
        validate_types_loop_err_shape ct module.types 0 _ h2
      cases he
    · obtain ⟨h', n', e', he⟩ :=
        validate_globals_loop_err_shape cg module.global_variables 0 _ h3
      cases he
    · obtain ⟨h', n', e', he⟩ :=
        validate_functions_loop_err_shape cf module.functions 0 _ _ h4
      cases he
    · obtain ⟨j, ep, hj, hs, hn, hdisj⟩ :=
        validate_entry_points_loop_conflict_inv cep hnc module.entry_points
          [] mi s n h5
      rcases hdisj with hmem | ⟨k, epk, hk, hepk, hpair⟩
      · simp at hmem
      · have hps : epk.stage = ep.stage := congrArg Prod.fst hpair
        have hpn : epk.name = ep.name := congrArg Prod.snd hpair
        exact ⟨k, j, epk, ep, hk, hepk, hj, hps.trans hs, hpn.trans hn,
          hs, hn⟩

end Javelin

namespace Javelin

theorem foldl_append_out (g : Nat → List Nat) :
    ∀ (ws : List Nat) (acc : List Nat),
      ws.foldl (fun v w => v ++ g w) acc
        = acc ++ ws.foldl (fun v w => v ++ g w) []
  | [], acc => by simp
  | w :: ws, acc => by
    simp only [List.foldl_cons]
    rw [foldl_append_out g ws (acc ++ g w), foldl_append_out g ws ([] ++ g w)]
    simp

theorem spv_bytes_cons (w : Nat) (ws : List Nat) :
    spv_bytes (w :: ws)
      = spv_word_le_bytes (w % 4294967296) ++ spv_bytes ws := by
  simp only [spv_bytes, List.foldl_cons]
  rw [foldl_append_out (fun w => spv_word_le_bytes (w % 4294967296)) ws]
  simp

/-- C8 counterexample: an output path ending in `.vert` selects no back-end
at all — `main` panics `Unknown output` — where the claim promises GLSL
(textual-B) emission. -/
theorem C8_output_dispatch_counterexample :
    output_backend "shader.vert" = none
  ∧ str_ends_with "shader.vert" ".vert" = true := by
  constructor
  · decide
  · decide

/-- C8 (amended): the output path's extension selects the back-end among
the two the driver has: `.metal` (checked first) selects MSL text, else
`.spv` selects binary SPIR-V words — serialised 4 little-endian bytes per
word, faithfully (reading the bytes back little-endian restores the words) —
and any other output path, `.vert`/`.frag` included, makes the driver panic
(`none`); every I/O, parse, validation, or emission failure likewise aborts
the process through `unwrap`/`panic!` (a non-zero exit), not through a
return value. -/
theorem C8_output_dispatch_rule :
    (∀ p : String, str_ends_with p ".metal" = true →
      output_backend p = some .Msl)
  ∧ (∀ p : String, str_ends_with p ".metal" = false →
      str_ends_with p ".spv" = true → output_backend p = some .Spv)
  ∧ (∀ p : String, str_ends_with p ".metal" = false →
      str_ends_with p ".spv" = false → output_backend p = none)
  ∧ (∀ words : List Nat, (spv_bytes words).length = 4 * words.length)
  ∧ (∀ words : List Nat, (∀ w ∈ words, w < 4294967296) →
      le_words_of_bytes (spv_bytes words) = words) := by
  refine ⟨?_, ?_, ?_, ?_, ?_⟩
  · intro p h
    simp [output_backend, h]
  · intro p h1 h2
    simp [output_backend, h1, h2]
  · intro p h1 h2
    simp [output_backend, h1, h2]
  · intro words
    induction words with
    | nil => rfl
    | cons w ws ih =>
      rw [spv_bytes_cons]
      simp [spv_word_le_bytes, ih]
      omega
  · intro words hws
    induction words with
    | nil => rfl
    | cons w ws ih =>
      rw [spv_bytes_cons]
      have hw : w % 4294967296 = w :=
        Nat.mod_eq_of_lt (hws w (List.mem_cons_self w ws))
      rw [hw]
      simp only [spv_word_le_bytes, List.cons_append, List.nil_append,
        le_words_of_bytes, le_word]
      simp only [List.append_eq, List.nil_append]
      rw [ih (fun x hx => hws x (List.mem_cons_of_mem w hx))]
      congr 1
      omega

end Javelin

namespace Javelin

theorem run_directive_version_eq (st : PPState) (token : TokenMetadata)
    (ts : List TokenMetadata) :
    run_directive st token "version" ts = (do
      let (version_tok, ts1) ← next_on_line token.line ts
      let version ← expect_integral version_tok
      if version = 450 ∨ version = 460 then do
        let (profile_tok, ts2) ← next_on_line token.line ts1
        let profile ← expect_word profile_tok
        if profile = "core" then
          pure (⟨st.tokens,
            macrosInsert st.macros "GL_core_profile" [⟨.Integral 1, 0, 0, 1⟩],
            st.line_offset, st.offset_line, st.offset_delta⟩, ts2)
        else if profile = "compatibility" ∨ profile = "es" then
          .err ⟨.UnsupportedProfile profile⟩
        else .err ⟨.UnknownProfile profile⟩
      else .err ⟨.UnsupportedVersion version⟩) := rfl

theorem run_directive_error_eq (st : PPState) (token : TokenMetadata)
    (ts : List TokenMetadata) :
    run_directive st token "error" ts = (match ts with
      | [] => .err ⟨.EOF⟩
      | t0 :: rest0 => do
        let message ← error_message_loop t0.chars_start token.line ""
          (t0 :: rest0)
        .panicked message) := rfl

theorem error_message_loop_no_err (first_byte line : Nat) :
    ∀ (acc : String) (ts : List TokenMetadata) (e : Error),
      error_message_loop first_byte line acc ts ≠ .err e
  | acc, [], e => by simp [error_message_loop]
  | acc, t :: rest, e => by
    simp only [error_message_loop]
    by_cases hl : t.line = line
    · rw [if_pos hl]
      simp only [usize_sub]
      by_cases hlt : t.chars_start < first_byte + acc.length
      · rw [if_pos hlt]
        simp
      · rw [if_neg hlt]
        simp only [RunResult.pure_def, RunResult.bind_ok]
        exact error_message_loop_no_err first_byte line _ rest e
    · rw [if_neg hl]
      simp

/-- C9: the `#version` directive is accepted exactly for versions 450 and
460 with profile `core` (which defines the macro `GL_core_profile` as the
integer 1, observable through its expansion later in the stream); any other
version number fails with `UnsupportedVersion«version»` before the profile
token is even fetched, profiles `compatibility` and `es` fail with
`UnsupportedProfile`, any other profile word fails with `UnknownProfile`,
and a version or profile token missing from the directive's line (the next
stream token lying on another line) fails with the `EOL` error. -/
theorem C9_version_directive :
    (∀ v : Nat, v = 450 ∨ v = 460 →
      parse_preprocessor
          [⟨.Preprocessor, 0, 0, 1⟩, ⟨.Word "version", 0, 1, 8⟩,
           ⟨.Integral v, 0, 9, 12⟩, ⟨.Word "core", 0, 13, 17⟩,
           ⟨.End, 1, 0, 1⟩]
        = .ok [⟨.End, 1, 0, 1⟩]
      ∧ parse_preprocessor
          [⟨.Preprocessor, 0, 0, 1⟩, ⟨.Word "version", 0, 1, 8⟩,
           ⟨.Integral v, 0, 9, 12⟩, ⟨.Word "core", 0, 13, 17⟩,
           ⟨.Word "GL_core_profile", 1, 0, 15⟩, ⟨.End, 2, 0, 1⟩]
        = .ok [⟨.Integral 1, 1, 0, 1⟩, ⟨.End, 2, 0, 1⟩])
  ∧ (∀ (l a0 b0 a1 b1 a2 b2 v : Nat) (rest : List TokenMetadata),
      ¬(v = 450 ∨ v = 460) →
      parse_preprocessor (⟨.Preprocessor, l, a0, b0⟩ ::
          ⟨.Word "version", l, a1, b1⟩ :: ⟨.Integral v, l, a2, b2⟩ :: rest)
        = .err ⟨.UnsupportedVersion v⟩)
  ∧ (∀ (l a0 b0 a1 b1 a2 b2 a3 b3 v : Nat) (p : String)
      (rest : List TokenMetadata),
      (v = 450 ∨ v = 460) → (p = "compatibility" ∨ p = "es") →
      parse_preprocessor (⟨.Preprocessor, l, a0, b0⟩ ::
          ⟨.Word "version", l, a1, b1⟩ :: ⟨.Integral v, l, a2, b2⟩ ::
          ⟨.Word p, l, a3, b3⟩ :: rest)
        = .err ⟨.UnsupportedProfile p⟩)
  ∧ (∀ (l a0 b0 a1 b1 a2 b2 a3 b3 v : Nat) (p : String)
      (rest : List TokenMetadata),
      (v = 450 ∨ v = 460) → p ≠ "core" → p ≠ "compatibility" → p ≠ "es" →
      parse_preprocessor (⟨.Preprocessor, l, a0, b0⟩ ::
          ⟨.Word "version", l, a1, b1⟩ :: ⟨.Integral v, l, a2, b2⟩ ::
          ⟨.Word p, l, a3, b3⟩ :: rest)
        = .err ⟨.UnknownProfile p⟩)
  ∧ (∀ (l a0 b0 a1 b1 : Nat) (t : TokenMetadata)
      (rest : List TokenMetadata), t.line ≠ l →
      parse_preprocessor (⟨.Preprocessor, l, a0, b0⟩ ::
          ⟨.Word "version", l, a1, b1⟩ :: t :: rest)
        = .err ⟨.EOL⟩)
  ∧ (∀ (l a0 b0 a1 b1 a2 b2 v : Nat) (t : TokenMetadata)
      (rest : List TokenMetadata), (v = 450 ∨ v = 460) → t.line ≠ l →
      parse_preprocessor (⟨.Preprocessor, l, a0, b0⟩ ::
          ⟨.Word "version", l, a1, b1⟩ :: ⟨.Integral v, l, a2, b2⟩ ::
          t :: rest)
        = .err ⟨.EOL⟩) := by
  refine ⟨?_, ?_, ?_, ?_, ?_, ?_⟩
  · intro v hv
    rcases hv with hv | hv <;> subst hv <;> exact ⟨rfl, rfl⟩
  · intro l a0 b0 a1 b1 a2 b2 v rest h
    simp [parse_preprocessor, parse_go, run_directive_version_eq,
      next_on_line, expect_word, expect_integral, h]
  · intro l a0 b0 a1 b1 a2 b2 a3 b3 v p rest hv hp
    have hpc : p ≠ "core" := by
      rcases hp with hp | hp <;> subst hp <;> decide
    rcases hv with hv | hv <;> subst hv <;>
      rcases hp with hp | hp <;> subst hp <;>
        simp [parse_preprocessor, parse_go, run_directive_version_eq,
          next_on_line, expect_word, expect_integral]
  · intro l a0 b0 a1 b1 a2 b2 a3 b3 v p rest hv hp1 hp2 hp3
    rcases hv with hv | hv <;> subst hv <;>
      simp [parse_preprocessor, parse_go, run_directive_version_eq,
        next_on_line, expect_word, expect_integral, hp1, hp2, hp3]
  · intro l a0 b0 a1 b1 t rest ht
    simp [parse_preprocessor, parse_go, run_directive_version_eq,
      next_on_line, expect_word, expect_integral, ht]
  · intro l a0 b0 a1 b1 a2 b2 v t rest hv ht
    rcases hv with hv | hv <;> subst hv <;>
      simp [parse_preprocessor, parse_go, run_directive_version_eq,
        next_on_line, expect_word, expect_integral, ht]

end Javelin

namespace Javelin

/-- C10 counterexample: the claim quantifies over any input containing a
`#error` directive, but an earlier failing directive returns an `Err` before
the `#error` is ever reached: here `#foo` on the first line makes
`parse_preprocessor` return `UnknownPreprocessorDirective` even though a
`#error x` with message tokens on its own line follows. -/
theorem C10_error_panic_counterexample :
    parse_preprocessor
        [⟨.Preprocessor, 0, 0, 1⟩, ⟨.Word "foo", 0, 1, 4⟩,
         ⟨.Preprocessor, 1, 0, 1⟩, ⟨.Word "error", 1, 1, 6⟩,
         ⟨.Word "x", 1, 7, 8⟩, ⟨.End, 2, 0, 1⟩]
      = .err ⟨.UnknownPreprocessorDirective "foo"⟩ := rfl

/-- C10 (amended): `parse_preprocessor` (hence `preprocess`) is not total:
whenever processing reaches a `#error` directive with at least one
following token, it panics with the collected message text instead of
returning an `Err` — concretely `#error bork` panics with "bork", and in
general the run panics with exactly the message the collection loop
gathers; the `error` arm constructs no `Error` value at all (its only `Err`
is the end-of-stream `EOF` before any message token).  An input whose
earlier directives already fail returns that earlier `Err` without reaching
the `#error`. -/
theorem C10_error_directive_panics :
    parse_preprocessor
        [⟨.Preprocessor, 0, 0, 1⟩, ⟨.Word "error", 0, 1, 6⟩,
         ⟨.Word "bork", 0, 7, 11⟩, ⟨.End, 1, 0, 1⟩]
      = .panicked "bork"
  ∧ (∀ (l a0 b0 a1 b1 : Nat) (t0 : TokenMetadata)
      (ts : List TokenMetadata) (msg : String),
      error_message_loop t0.chars_start l "" (t0 :: ts) = .ok msg →
      parse_preprocessor (⟨.Preprocessor, l, a0, b0⟩ ::
          ⟨.Word "error", l, a1, b1⟩ :: t0 :: ts)
        = .panicked msg)
  ∧ (∀ (st : PPState) (token : TokenMetadata) (ts : List TokenMetadata)
      (e : Error),
      run_directive st token "error" ts = .err e →
      ts = [] ∧ e = ⟨.EOF⟩) := by
  refine ⟨rfl, ?_, ?_⟩
  · intro l a0 b0 a1 b1 t0 ts msg hmsg
    simp [parse_preprocessor, parse_go, run_directive_error_eq,
      next_on_line, expect_word, hmsg]
  · intro st token ts e h
    rw [run_directive_error_eq] at h
    cases ts with
    | nil =>
      refine ⟨rfl, ?_⟩
      obtain ⟨ek⟩ := e
      simp at h
      simp [h]
    | cons t0 rest0 =>
      exfalso
      rcases hloop : error_message_loop t0.chars_start token.line ""
          (t0 :: rest0) with msg | e' | m
      · simp [hloop] at h
      · exact error_message_loop_no_err t0.chars_start token.line ""
          (t0 :: rest0) e' hloop
      · simp [hloop] at h

end Javelin
